import Mathlib

/-!
Verification development for the vDNN training runtime
(`src/vdnn_ext_cmp/src/neural_net.cu`).

The definitions below are a shallow embedding of the memory-management core
of `neural_net.cu`: layer kinds, the offload marking of `NeuralNet::setOffload`,
the prefetch scan of `NeuralNet::findPrefetchLayer`, the blocking suballocator
loop of `NeuralNet::lockedcnmemMalloc` / `lockedcnmemFree`, the dynamic planning
policy of `NeuralNet::vDNNOptimize`, the two planning simulations
(`simulateNeuralNetworkMemory`, `simulateCNMEMMemory`) and the allocation /
release schedule of the executor `NeuralNet::getLoss`, together with the loss
and argmax kernels (`computeSoftmaxLoss`, `inferClass`,
`NeuralNet::computeLoss`, `NeuralNet::compareOutputCorrect`).

Device pointers are abstracted to byte counts (an allocation/free event list);
machine floats in the loss computation are modelled as real numbers; class
scores compared by `inferClass` are modelled as integers (only their order
matters).  Classes, byte sizes and indices are natural numbers.
-/

namespace VdnnNet

/-- Layer kinds, from the `LayerType` values stored in `layer_type` by the
`NeuralNet` constructor. -/
inductive LayerType where
  | CONV
  | FULLY_CONNECTED
  | DROPOUT
  | BATCHNORM
  | POOLING
  | ACTV
  | SOFTMAX
deriving DecidableEq, Repr

open LayerType

/-- The test `layer_type[i] == SOFTMAX or layer_type[i] == ACTV` used throughout
`neural_net.cu` (setOffload, the forward skip, the backward alias branch). -/
def isActvOrSoftmax (t : LayerType) : Bool :=
  t == ACTV || t == SOFTMAX

/-- Offload policies of `NeuralNet::setOffload`. -/
inductive OffloadType where
  | OFFLOAD_NONE
  | OFFLOAD_CONV
  | OFFLOAD_ALL
deriving DecidableEq, Repr

/-- The trailing downward scan of `NeuralNet::setOffload` (lines 969-976 and
985-992): `for (i = num_layers - 1; i >= 0; i--)` skips SOFTMAX/ACTV layers and
stops at the first other layer, returning its index.  The argument is the
exclusive upper bound of the scan (initially `num_layers`). -/
def scanLastNonAS (lt : List LayerType) : Nat → Option Nat
  | 0 => none
  | n + 1 =>
    if isActvOrSoftmax (lt.getD n ACTV) then scanLastNonAS lt n else some n

/-- `NeuralNet::setOffload` (neural_net.cu lines 958-994): mark the layers to
offload according to the policy, then unmark the last non-SOFTMAX/non-ACTV
layer. -/
def setOffload (lt : List LayerType) (ot : OffloadType) : List Bool :=
  match ot with
  | .OFFLOAD_NONE => lt.map (fun _ => false)
  | .OFFLOAD_CONV =>
    let base := lt.map (fun t => t == CONV)
    match scanLastNonAS lt lt.length with
    | some j => base.set j false
    | none => base
  | .OFFLOAD_ALL =>
    let base := lt.map (fun t => !isActvOrSoftmax t)
    match scanLastNonAS lt lt.length with
    | some j => base.set j false
    | none => base

/-- `NeuralNet::findPrefetchLayer` (neural_net.cu lines 1664-1674): scan from
`cur_layer - 1` downward; return the first layer that is marked for offload and
not yet prefetched; stop with "none" when a convolution layer is met first.
The argument is the current layer (the scan starts one below it).  The
side-effecting `prefetched[i] = true` of the source is performed by the
callers of this function in the embedding. -/
def findPrefetchLayer (lt : Nat → LayerType) (toOffload prefetched : Nat → Bool) :
    Nat → Option Nat
  | 0 => none
  | i + 1 =>
    if toOffload i && !prefetched i then some i
    else if lt i == CONV then none
    else findPrefetchLayer lt toOffload prefetched i

section Suballocator

/-- Status values returned by `cnmemMalloc` (the cnmem pool library used by
`neural_net.cu`). -/
inductive CnmemStatus where
  | CNMEM_STATUS_SUCCESS
  | CNMEM_STATUS_OUT_OF_MEMORY
  | CNMEM_STATUS_INVALID_ARGUMENT
  | CNMEM_STATUS_NOT_INITIALIZED
  | CNMEM_STATUS_CUDA_ERROR
  | CNMEM_STATUS_UNKNOWN_ERROR
deriving DecidableEq, Repr

open CnmemStatus

/-- What one iteration of a blocking-allocate loop does after seeing the pool
status. -/
inductive LoopMove where
  | exitLoop      -- break out of the loop, returning the pointer
  | waitThenRetry -- wait on the condition variable, then retry
  | retryNow      -- go around the loop again without waiting
  | fatalStop     -- abort with a fatal error
deriving DecidableEq, Repr

/-- One iteration of the `while (true)` loop of `NeuralNet::lockedcnmemMalloc`
(neural_net.cu lines 1008-1017): SUCCESS breaks, OUT_OF_MEMORY waits on
`cond_cnmem_available` and retries, and any other status falls through both
branches and retries immediately; there is no error branch. -/
def lockedcnmemMallocMove (s : CnmemStatus) : LoopMove :=
  if s = CNMEM_STATUS_SUCCESS then .exitLoop
  else if s = CNMEM_STATUS_OUT_OF_MEMORY then .waitThenRetry
  else .retryNow

/-- Modelled from the spec: "alloc(size) → ptr — blocking.  If the pool cannot
satisfy size, the caller waits on a condition variable ...; then retry.  Fails
with Fatal only if the underlying pool reports an error other than
out-of-memory."  One loop iteration under that description. -/
def specAllocMove (s : CnmemStatus) : LoopMove :=
  if s = CNMEM_STATUS_SUCCESS then .exitLoop
  else if s = CNMEM_STATUS_OUT_OF_MEMORY then .waitThenRetry
  else .fatalStop

/-- Outcome of running a blocking-allocate loop against a given sequence of
pool responses (the successive values returned by `cnmemMalloc`). -/
inductive AllocOutcome where
  | returned     -- the loop broke and the allocation call returned
  | stillWaiting -- all listed responses were consumed and the loop is still running
  | fatal        -- the loop aborted fatally
deriving DecidableEq, Repr

/-- Run the `lockedcnmemMalloc` retry loop over a list of pool responses,
counting how many times the loop waited on `cond_cnmem_available`. -/
def lockedcnmemMallocRun : List CnmemStatus → AllocOutcome × Nat
  | [] => (.stillWaiting, 0)
  | s :: rest =>
    match lockedcnmemMallocMove s with
    | .exitLoop => (.returned, 0)
    | .waitThenRetry =>
      let r := lockedcnmemMallocRun rest
      (r.1, r.2 + 1)
    | .retryNow => lockedcnmemMallocRun rest
    | .fatalStop => (.fatal, 0)

/-- Modelled from the spec: the same runner for the spec's alloc description
(`specAllocMove`), which stops fatally on a status other than success or
out-of-memory. -/
def specAllocRun : List CnmemStatus → AllocOutcome × Nat
  | [] => (.stillWaiting, 0)
  | s :: rest =>
    match specAllocMove s with
    | .exitLoop => (.returned, 0)
    | .waitThenRetry =>
      let r := specAllocRun rest
      (r.1, r.2 + 1)
    | .retryNow => specAllocRun rest
    | .fatalStop => (.fatal, 0)

/-- Host-side steps taken by the suballocator wrappers. -/
inductive SuballocStep where
  | lockMutex
  | unlockMutex
  | poolFree
  | condBroadcast
deriving DecidableEq, Repr

/-- `NeuralNet::lockedcnmemFree` (neural_net.cu lines 1021-1026): lock the
single mutex, free the block through the pool, broadcast on
`cond_cnmem_available`, unlock. -/
def lockedcnmemFreeSteps : List SuballocStep :=
  [.lockMutex, .poolFree, .condBroadcast, .unlockMutex]

end Suballocator

section DynPlanner

/-- The convolution-algorithm preferences of `vDNNConvAlgoPref`. -/
inductive AlgoPref where
  | PREFER_PERFORMANCE_OPTIMAL
  | PREFER_MEMORY_OPTIMAL
deriving DecidableEq, Repr

open AlgoPref OffloadType

/-- A candidate plan tried by the dynamic planner: which layers to offload,
which convolution algorithms to prefer, and hard/soft workspace discipline. -/
structure PlanChoice where
  offload : OffloadType
  pref : AlgoPref
  hard : Bool
deriving DecidableEq, Repr

/-- Result of `NeuralNet::vDNNOptimize` under the dynamic policy. -/
inductive PlanOutcome where
  | selected (c : PlanChoice) -- returned with this offload setting in effect
  | outOfMemory               -- the initial trainability check failed
  | exitZero                  -- fell off the end of the candidate list
deriving DecidableEq, Repr

/-- The `vdnn_type == vDNN_DYN` branch of `NeuralNet::vDNNOptimize`
(neural_net.cu lines 885-955), with the feasibility of each
`setOffload; resetPrefetched; simulateNeuralNetworkMemory` call abstracted
into the oracle `f` (the simulation is deterministic in the offload set,
algorithm preference, and hard/soft flag).  The failing trainability check
calls `outOfMemory()`, which is not part of this source file and is modelled
from the spec as failing with OutOfMemory; the final `exit(0)` is
`PlanOutcome.exitZero`. -/
def vdnnOptimizeDyn (f : OffloadType → AlgoPref → Bool → Bool) : PlanOutcome :=
  if !f OFFLOAD_ALL PREFER_MEMORY_OPTIMAL true then .outOfMemory
  else if f OFFLOAD_NONE PREFER_PERFORMANCE_OPTIMAL true then
    .selected ⟨OFFLOAD_NONE, PREFER_PERFORMANCE_OPTIMAL, true⟩
  else if f OFFLOAD_CONV PREFER_PERFORMANCE_OPTIMAL true then
    .selected ⟨OFFLOAD_CONV, PREFER_PERFORMANCE_OPTIMAL, true⟩
  else if f OFFLOAD_ALL PREFER_PERFORMANCE_OPTIMAL true then
    .selected ⟨OFFLOAD_ALL, PREFER_PERFORMANCE_OPTIMAL, true⟩
  else if f OFFLOAD_CONV PREFER_PERFORMANCE_OPTIMAL false then
    .selected ⟨OFFLOAD_CONV, PREFER_PERFORMANCE_OPTIMAL, false⟩
  else if f OFFLOAD_ALL PREFER_PERFORMANCE_OPTIMAL false then
    .selected ⟨OFFLOAD_ALL, PREFER_PERFORMANCE_OPTIMAL, false⟩
  else if f OFFLOAD_CONV PREFER_MEMORY_OPTIMAL true then
    .selected ⟨OFFLOAD_CONV, PREFER_MEMORY_OPTIMAL, true⟩
  else if f OFFLOAD_ALL PREFER_MEMORY_OPTIMAL true then
    .selected ⟨OFFLOAD_ALL, PREFER_MEMORY_OPTIMAL, true⟩
  else .exitZero

/-- The candidate table of the spec's planning policy, rows 2 through 8 (row 1,
"(all, planner-specified, hard)", is the trainability check and does not return
a plan). -/
def specPlanTable : List PlanChoice :=
  [⟨OFFLOAD_NONE, PREFER_PERFORMANCE_OPTIMAL, true⟩,
   ⟨OFFLOAD_CONV, PREFER_PERFORMANCE_OPTIMAL, true⟩,
   ⟨OFFLOAD_ALL, PREFER_PERFORMANCE_OPTIMAL, true⟩,
   ⟨OFFLOAD_CONV, PREFER_PERFORMANCE_OPTIMAL, false⟩,
   ⟨OFFLOAD_ALL, PREFER_PERFORMANCE_OPTIMAL, false⟩,
   ⟨OFFLOAD_CONV, PREFER_MEMORY_OPTIMAL, true⟩,
   ⟨OFFLOAD_ALL, PREFER_MEMORY_OPTIMAL, true⟩]

/-- Modelled from the spec: "tries candidate plans in a fixed priority order
and returns the first that confirms feasibility ... Fails with OutOfMemory if
none confirm", with row 1 of the table used as the trainability check (the
planner specifies the memory-optimal preference for it). -/
def specChoosePlan (f : OffloadType → AlgoPref → Bool → Bool) : PlanOutcome :=
  if !f OFFLOAD_ALL PREFER_MEMORY_OPTIMAL true then .outOfMemory
  else
    match specPlanTable.find? (fun c => f c.offload c.pref c.hard) with
    | some c => .selected c
    | none => .outOfMemory

end DynPlanner

section MemoryModel

/-- Static data of a constructed `NeuralNet`, as far as the memory schedule is
concerned: layer kinds, per-layer byte sizes (`layer_input_size`,
`data_type_size`, convolution workspace sizes and derivative sizes, fully
connected and batch-norm derivative sizes), the `pre_alloc_*` flags, and the
byte budget `free_bytes` handed to the planner.  The `*WorkspaceOk` flags model
whether `ConvLayerParams::getWorkspaceSize` (whose code is outside this source
file) finds a feasible algorithm, i.e. does not return -1; its returned size is
modelled by the corresponding stored `*WorkspaceSize` field, which is also what
`simulateCNMEMMemory` and `getLoss` read back. -/
structure Net where
  numLayers : Nat
  layerType : Nat → LayerType
  layerInputSize : Nat → Nat
  dataTypeSize : Nat
  batchSize : Nat
  numClasses : Nat
  fwdWorkspaceSize : Nat → Nat
  bwdFilterWorkspaceSize : Nat → Nat
  bwdDataWorkspaceSize : Nat → Nat
  fwdWorkspaceOk : Nat → Bool
  bwdFilterWorkspaceOk : Nat → Bool
  bwdDataWorkspaceOk : Nat → Bool
  kernelSize : Nat → Nat
  cOut : Nat → Nat
  weightMatrixSize : Nat → Nat
  allocationSize : Nat → Nat
  preAllocConvDerivative : Bool
  preAllocFcDerivative : Bool
  preAllocBatchNormDerivative : Bool
  freeBytes : Int

/-- Bytes of activation `i`: `layer_input_size[i] * data_type_size`. -/
def Net.sz (net : Net) (j : Nat) : Nat := net.layerInputSize j * net.dataTypeSize

/-- Bytes of the loss gradient: `batch_size * num_classes * data_type_size`
(allocated for `dlayer_input[num_layers]`). -/
def Net.gradSz (net : Net) : Nat :=
  net.batchSize * net.numClasses * net.dataTypeSize

/-- Backward convolution workspace of layer `i`:
`max(bwd_filter_workspace_size, i > 0 ? bwd_data_workspace_size : 0)`. -/
def Net.bwdWs (net : Net) (i : Nat) : Nat :=
  max (net.bwdFilterWorkspaceSize i)
    (if 0 < i then net.bwdDataWorkspaceSize i else 0)

/-- One observable step of the memory schedule.  `alloc`/`free` are pool
allocations and releases in bytes; `offload` is the device-to-host copy of
activation `layer`; `prefetch` the host-to-device copy back; `bwdStep` marks
the backward computation of a layer.  Only `alloc` and `free` move the
consumed-bytes counter. -/
inductive Event where
  | alloc (bytes : Nat)
  | free (bytes : Nat)
  | offload (layer : Nat)
  | prefetch (layer : Nat)
  | bwdStep (layer : Nat)
deriving DecidableEq, Repr

/-- Allocation and release events, the ones every simulation shares. -/
def isMemEvent : Event → Bool
  | .alloc _ => true
  | .free _ => true
  | _ => false

/-- Advance the pair (consumed bytes, peak consumed bytes) by one event.  The
peak is updated at every allocation, exactly as `CnmemSpace::updateMaxConsume`
is called after every `updateSpace(SUB, ...)` in
`simulateNeuralNetworkMemory`. -/
def stepPeak (s : Int × Int) : Event → Int × Int
  | .alloc n => (s.1 + n, max s.2 (s.1 + n))
  | .free n => (s.1 - n, s.2)
  | _ => s

/-- Run a schedule from a (consumed, peak) state. -/
def runPeak (s : Int × Int) (l : List Event) : Int × Int := l.foldl stepPeak s

/-- Peak consumed bytes of a schedule started from an empty pool. -/
def peakOf (l : List Event) : Int := (runPeak (0, 0) l).2

/-- Two schedules that have identical consumed-bytes and peak behaviour from
every start state. -/
def PeakEquiv (l1 l2 : List Event) : Prop := ∀ s, runPeak s l1 = runPeak s l2

end MemoryModel

section Schedules

variable (net : Net)

/-- The index the forward loops continue with after processing layer `i`:
`if (layer_type[i + 1] == ACTV or layer_type[i + 1] == SOFTMAX) i = i + 1;`
followed by the loop increment (simulateCNMEMMemory line 738, getLoss line
1281). -/
def skipNext (i : Nat) : Nat :=
  if isActvOrSoftmax (net.layerType (i + 1)) then i + 2 else i + 1

/-- Allocation/release pattern of one forward layer, shared verbatim by the
analytic simulation (simulateNeuralNetworkMemory lines 490-531) and the
allocator replay (simulateCNMEMMemory lines 716-741): allocate the output
`layer_input[i+1]`; for CONV allocate and release the forward workspace;
release the input when the layer is offloaded. -/
def fwdMemStep (toOffload : Nat → Bool) (i : Nat) : List Event :=
  [.alloc (net.sz (i + 1))]
    ++ (if net.layerType i = CONV then
          [.alloc (net.fwdWorkspaceSize i), .free (net.fwdWorkspaceSize i)]
        else [])
    ++ (if toOffload i then [.free (net.sz i)] else [])

/-- Forward pass of the analytic planning simulation
(simulateNeuralNetworkMemory lines 490-531): every layer in order, stopping at
the first SOFTMAX layer.  The `fuel` argument is an upper bound on the
remaining loop iterations (callers pass `numLayers`); the loop exits through
its two guards, never by running out of fuel. -/
def analyticFwdGo (toOffload : Nat → Bool) : Nat → Nat → List Event
  | 0, _ => []
  | fuel + 1, i =>
    if net.numLayers ≤ i then []
    else if net.layerType i = SOFTMAX then []
    else fwdMemStep net toOffload i ++ analyticFwdGo toOffload fuel (i + 1)

/-- Forward pass of the allocator replay (simulateCNMEMMemory lines 716-741):
every layer in order, stepping over a following ACTV or SOFTMAX layer.  The
`fuel` argument is an upper bound on the remaining loop iterations. -/
def replayFwdGo (toOffload : Nat → Bool) : Nat → Nat → List Event
  | 0, _ => []
  | fuel + 1, i =>
    if net.numLayers ≤ i then []
    else fwdMemStep net toOffload i ++ replayFwdGo toOffload fuel (skipNext net i)

/-- One forward layer of the executor `getLoss` (lines 1083-1286): the offload
copy is enqueued first (for `i > 0`, offloaded, training), then the output is
allocated, for CONV the workspace is allocated; after the compute-stream sync
the detached free-worker releases the offloaded input
(`threadFreeLayerInputFunction`, placed here at its spawn point, lines
1247-1252), then the CONV workspace is released; in inference the input is
released directly. -/
def getLossFwdStep (toOffload : Nat → Bool) (train : Bool) (i : Nat) :
    List Event :=
  (if 0 < i ∧ toOffload i = true ∧ train = true then [.offload i] else [])
    ++ [.alloc (net.sz (i + 1))]
    ++ (if net.layerType i = CONV then [.alloc (net.fwdWorkspaceSize i)] else [])
    ++ (if toOffload i = true ∧ train = true then [.free (net.sz i)] else [])
    ++ (if net.layerType i = CONV then [.free (net.fwdWorkspaceSize i)] else [])
    ++ (if train = false then [.free (net.sz i)] else [])

/-- Forward pass of `getLoss`: same stepping as the replay, but in inference
(`train == false`) the loop breaks before the last layer (line 1084).  The
`fuel` argument is an upper bound on the remaining loop iterations. -/
def getLossFwdGo (toOffload : Nat → Bool) (train : Bool) :
    Nat → Nat → List Event
  | 0, _ => []
  | fuel + 1, i =>
    if net.numLayers ≤ i then []
    else if train = false ∧ i = net.numLayers - 1 then []
    else getLossFwdStep net toOffload train i
      ++ getLossFwdGo toOffload train fuel (skipNext net i)

/-- Convolution filter/bias derivative allocations
(`ConvLayerParams::cnmemAllocDerivatives`: `kernel_size` and `C_out` elements),
performed when `pre_alloc_conv_derivative` is false. -/
def convDerivAllocs (i : Nat) : List Event :=
  if net.preAllocConvDerivative then []
  else [.alloc (net.kernelSize i * net.dataTypeSize),
        .alloc (net.cOut i * net.dataTypeSize)]

/-- Releases matching `convDerivAllocs`. -/
def convDerivFrees (i : Nat) : List Event :=
  if net.preAllocConvDerivative then []
  else [.free (net.kernelSize i * net.dataTypeSize),
        .free (net.cOut i * net.dataTypeSize)]

/-- Fully-connected derivative allocations (`weight_matrix_size` and `C_out`),
when `pre_alloc_fc_derivative` is false. -/
def fcDerivAllocs (i : Nat) : List Event :=
  if net.preAllocFcDerivative then []
  else [.alloc (net.weightMatrixSize i * net.dataTypeSize),
        .alloc (net.cOut i * net.dataTypeSize)]

/-- Releases matching `fcDerivAllocs`. -/
def fcDerivFrees (i : Nat) : List Event :=
  if net.preAllocFcDerivative then []
  else [.free (net.weightMatrixSize i * net.dataTypeSize),
        .free (net.cOut i * net.dataTypeSize)]

/-- Batch-norm derivative allocations (twice `allocation_size`), when
`pre_alloc_batch_norm_derivative` is false. -/
def bnDerivAllocs (i : Nat) : List Event :=
  if net.preAllocBatchNormDerivative then []
  else [.alloc (net.allocationSize i * net.dataTypeSize),
        .alloc (net.allocationSize i * net.dataTypeSize)]

/-- Releases matching `bnDerivAllocs`. -/
def bnDerivFrees (i : Nat) : List Event :=
  if net.preAllocBatchNormDerivative then []
  else [.free (net.allocationSize i * net.dataTypeSize),
        .free (net.allocationSize i * net.dataTypeSize)]

/-- The releases closing one backward layer (all simulations): the layer
output, the layer output derivative, and for layer 0 additionally the network
input. -/
def bwdCommonFrees (i : Nat) : List Event :=
  [.free (net.sz (i + 1)), .free (net.sz (i + 1))]
    ++ (if i = 0 then [.free (net.sz 0)] else [])

/-- Backward type-specific events of the analytic simulation
(simulateNeuralNetworkMemory lines 576-670): for CONV the workspace is
allocated before the derivatives; releases are workspace first. -/
def analyticBwdTypeEvents (i : Nat) : List Event :=
  match net.layerType i with
  | .CONV =>
    [.alloc (net.bwdWs i)] ++ convDerivAllocs net i
      ++ [.free (net.bwdWs i)] ++ convDerivFrees net i
  | .FULLY_CONNECTED => fcDerivAllocs net i ++ fcDerivFrees net i
  | .BATCHNORM => bnDerivAllocs net i ++ bnDerivFrees net i
  | _ => []

/-- Backward type-specific events of the allocator replay and of `getLoss`
(simulateCNMEMMemory lines 766-824, getLoss lines 1401-1642): for CONV the
derivatives are allocated before the workspace; releases are workspace
first. -/
def replayBwdTypeEvents (i : Nat) : List Event :=
  match net.layerType i with
  | .CONV =>
    convDerivAllocs net i ++ [.alloc (net.bwdWs i)]
      ++ [.free (net.bwdWs i)] ++ convDerivFrees net i
  | .FULLY_CONNECTED => fcDerivAllocs net i ++ fcDerivFrees net i
  | .BATCHNORM => bnDerivAllocs net i ++ bnDerivFrees net i
  | _ => []

/-- One backward layer of the analytic simulation
(simulateNeuralNetworkMemory lines 546-687).  For `i > 0` a SOFTMAX layer is
skipped (`continue`); otherwise the previous derivative is allocated (for
`i > 0`), a prefetch target is looked up and allocated, the type-specific
workspace and derivative traffic happens, and output, output derivative, and
(for layer 0) input are released. -/
def analyticBwdStep (toOffload prefetched : Nat → Bool) (i : Nat) :
    List Event × (Nat → Bool) :=
  if 0 < i ∧ net.layerType i = SOFTMAX then ([], prefetched)
  else
    let dEv : List Event := if 0 < i then [.alloc (net.sz i)] else []
    let fpr := findPrefetchLayer net.layerType toOffload prefetched i
    let pEv : List Event := match fpr with
      | some j => [.alloc (net.sz j)]
      | none => []
    let pref1 := match fpr with
      | some j => Function.update prefetched j true
      | none => prefetched
    (dEv ++ pEv ++ analyticBwdTypeEvents net i ++ bwdCommonFrees net i, pref1)

/-- Backward pass of the analytic simulation, from layer `i` down to layer 0,
threading the `prefetched` flags through `findPrefetchLayer`. -/
def analyticBwdIter (toOffload : Nat → Bool) :
    (i : Nat) → (prefetched : Nat → Bool) → List Event
  | 0, prefetched => (analyticBwdStep net toOffload prefetched 0).1
  | i + 1, prefetched =>
    let s := analyticBwdStep net toOffload prefetched (i + 1)
    s.1 ++ analyticBwdIter toOffload i s.2

/-- One backward layer of the allocator replay (simulateCNMEMMemory lines
746-831).  A SOFTMAX layer contributes nothing (`continue` before the
releases); an ACTV layer only aliases the derivative and then performs the
common releases; otherwise prefetch and previous-derivative allocations happen
for `i > 0`, then the type-specific traffic and the common releases. -/
def replayBwdStep (toOffload prefetched : Nat → Bool) (i : Nat) :
    List Event × (Nat → Bool) :=
  if net.layerType i = SOFTMAX then ([], prefetched)
  else if net.layerType i = ACTV then (bwdCommonFrees net i, prefetched)
  else if 0 < i then
    let fpr := findPrefetchLayer net.layerType toOffload prefetched i
    let pEv : List Event := match fpr with
      | some j => [.alloc (net.sz j)]
      | none => []
    let pref1 := match fpr with
      | some j => Function.update prefetched j true
      | none => prefetched
    (pEv ++ [.alloc (net.sz i)] ++ replayBwdTypeEvents net i
      ++ bwdCommonFrees net i, pref1)
  else (replayBwdTypeEvents net 0 ++ bwdCommonFrees net 0, prefetched)

/-- Backward pass of the allocator replay, from layer `i` down to 0. -/
def replayBwdIter (toOffload : Nat → Bool) :
    (i : Nat) → (prefetched : Nat → Bool) → List Event
  | 0, prefetched => (replayBwdStep net toOffload prefetched 0).1
  | i + 1, prefetched =>
    let s := replayBwdStep net toOffload prefetched (i + 1)
    s.1 ++ replayBwdIter toOffload i s.2

/-- One backward layer of the executor `getLoss` (lines 1335-1656).  SOFTMAX
and ACTV layers compute and `continue` without touching the pool (the
derivative is aliased); otherwise the prefetch target found is allocated and
its host-to-device copy enqueued, the previous derivative is allocated, the
backward computation runs with the type-specific workspace/derivative traffic
of `replayBwdTypeEvents`, and the common releases follow. -/
def getLossBwdStep (toOffload prefetched : Nat → Bool) (i : Nat) :
    List Event × (Nat → Bool) :=
  if net.layerType i = SOFTMAX then ([.bwdStep i], prefetched)
  else if net.layerType i = ACTV then ([.bwdStep i], prefetched)
  else if 0 < i then
    let fpr := findPrefetchLayer net.layerType toOffload prefetched i
    let pEv : List Event := match fpr with
      | some j => [.alloc (net.sz j), .prefetch j]
      | none => []
    let pref1 := match fpr with
      | some j => Function.update prefetched j true
      | none => prefetched
    (pEv ++ [.alloc (net.sz i)] ++ [.bwdStep i] ++ replayBwdTypeEvents net i
      ++ bwdCommonFrees net i, pref1)
  else ([.bwdStep 0] ++ replayBwdTypeEvents net 0 ++ bwdCommonFrees net 0,
    prefetched)

/-- Backward pass of `getLoss`, from layer `i` down to 0. -/
def getLossBwdIter (toOffload : Nat → Bool) :
    (i : Nat) → (prefetched : Nat → Bool) → List Event
  | 0, prefetched => (getLossBwdStep net toOffload prefetched 0).1
  | i + 1, prefetched =>
    let s := getLossBwdStep net toOffload prefetched (i + 1)
    s.1 ++ getLossBwdIter toOffload i s.2

/-- Full event schedule of the analytic planning simulation
(`NeuralNet::simulateNeuralNetworkMemory`, lines 474-693): input allocation,
forward pass, final-derivative allocation of `layer_input_size[num_layers]`
bytes, backward pass. -/
def analyticEvents (toOffload : Nat → Bool) : List Event :=
  [.alloc (net.sz 0)] ++ analyticFwdGo net toOffload net.numLayers 0
    ++ [.alloc (net.sz net.numLayers)]
    ++ (match net.numLayers with
        | 0 => []
        | l + 1 => analyticBwdIter net toOffload l (fun _ => false))

/-- Full event schedule of the allocator replay
(`NeuralNet::simulateCNMEMMemory`, lines 709-835): input allocation, forward
pass, loss-derivative allocation of `batch_size * num_classes *
data_type_size` bytes, backward pass (after `resetPrefetched`). -/
def replayEvents (toOffload : Nat → Bool) : List Event :=
  [.alloc (net.sz 0)] ++ replayFwdGo net toOffload net.numLayers 0
    ++ [.alloc net.gradSz]
    ++ (match net.numLayers with
        | 0 => []
        | l + 1 => replayBwdIter net toOffload l (fun _ => false))

/-- Full event schedule of one `NeuralNet::getLoss` call (lines 1057-1662):
input allocation and forward pass; then, when training, the loss-derivative
allocation and the backward pass, and in inference only the release of the
last computed activation (line 1291). -/
def getLossEvents (toOffload : Nat → Bool) (train : Bool) : List Event :=
  [.alloc (net.sz 0)] ++ getLossFwdGo net toOffload train net.numLayers 0
    ++ (if train then
          [.alloc net.gradSz]
            ++ (match net.numLayers with
                | 0 => []
                | l + 1 => getLossBwdIter net toOffload l (fun _ => false))
        else [.free (net.sz (net.numLayers - 1))])

/-- The workspace queries of the analytic simulation all find an algorithm
(none of the `getWorkspaceSize` calls returns -1): the forward algorithm for
every CONV layer, the backward-filter algorithm for every CONV layer, and the
backward-data algorithm for every CONV layer above 0. -/
def analyticWsOk : Bool :=
  decide (∀ i, i < net.numLayers → net.layerType i = CONV →
    (net.fwdWorkspaceOk i = true ∧ net.bwdFilterWorkspaceOk i = true ∧
      (0 < i → net.bwdDataWorkspaceOk i = true)))

/-- Feasibility verdict of the analytic simulation.  The source checks
`CnmemSpace::isAvailable` (nonnegative remaining bytes) after the allocations
of every step and returns false as soon as a check fails or a workspace query
returns -1; on the schedules considered here every allocation is followed by
such a check before any further allocation, so the conjunction of all checks
is exactly "the running peak never exceeds the byte budget", and the overall
verdict is that bound together with `analyticWsOk`. -/
def analyticFeasible (toOffload : Nat → Bool) : Bool :=
  decide (peakOf (analyticEvents net toOffload) ≤ net.freeBytes)
    && analyticWsOk net

/-- `exp_max_consume` as returned by `simulateNeuralNetworkMemory` (line 693):
the running maximum of consumed bytes over the analytic schedule. -/
def expMaxConsume (toOffload : Nat → Bool) : Int :=
  peakOf (analyticEvents net toOffload)

/-- `max_consume` as returned by the planning pipeline that sizes the pool:
the replay runs in a cnmem pool initialised at `exp_max_consume` with growth
enabled (cnmemInit flags 0, line 702) and `cnmemMemGetInfo` then reports the
grown pool size (line 833), i.e. the larger of the analytic estimate and the
replay's own peak.  Modelled from the cnmem pool semantics (cnmem is not part
of this source file). -/
def actualMaxConsume (toOffload : Nat → Bool) : Int :=
  max (expMaxConsume net toOffload) (peakOf (replayEvents net toOffload))

/-- Well-formedness of the networks this development reasons about, matching
what the `NeuralNet` constructor and test networks build: at least two layers;
SOFTMAX exactly as the final layer; no standalone ACTV layers (activations are
fused into CONV/FC layers through `activation_mode`); and the final-derivative
size check of `simulateNeuralNetworkMemory` (lines 534-538, which `exit`s on
mismatch) passes. -/
structure WellFormed (net : Net) : Prop where
  two_le : 2 ≤ net.numLayers
  last_softmax : net.layerType (net.numLayers - 1) = LayerType.SOFTMAX
  softmax_only_last : ∀ i, i < net.numLayers - 1 → net.layerType i ≠ LayerType.SOFTMAX
  no_actv : ∀ i, i < net.numLayers → net.layerType i ≠ LayerType.ACTV
  grad_size : net.batchSize * net.numClasses = net.layerInputSize net.numLayers

end Schedules

section GradAlias

/-- Pointer identities assigned to `dlayer_input` by the backward loop of
`getLoss` (lines 1356-1398), iterating `i` from the top down to 1: an ACTV or
SOFTMAX layer aliases its slot to the one above (`dlayer_input[i] =
dlayer_input[i + 1]`, line 1358); every other layer gets a fresh allocation
(`cnmemMalloc(&dlayer_input[i], ...)`, line 1392), modelled by a fresh id drawn
from the counter `next` (distinct allocations receive distinct ids).  Slot 0 is
never assigned (the `if (i > 0)` guard). -/
def bwdGradPtrs (lt : Nat → LayerType) :
    (i : Nat) → (next : Nat) → (d : Nat → Option Nat) → (Nat → Option Nat)
  | 0, _, d => d
  | i + 1, next, d =>
    if isActvOrSoftmax (lt (i + 1)) then
      bwdGradPtrs lt i next (Function.update d (i + 1) (d (i + 2)))
    else
      bwdGradPtrs lt i (next + 1) (Function.update d (i + 1) (some next))

/-- The `dlayer_input` pointer table after the backward loop of a training
step on a network with `numLayers` layers: slot `numLayers` holds the loss
gradient allocated before the loop (line 1310, id 0); the loop then runs from
`numLayers - 1` down to 0. -/
def gradPtrFinal (lt : Nat → LayerType) (numLayers : Nat) : Nat → Option Nat :=
  match numLayers with
  | 0 => fun _ => none
  | l + 1 =>
    bwdGradPtrs lt l 1 (Function.update (fun _ => none) (l + 1) (some 0))

end GradAlias

section OffloadPrefetchPairing

/-- The layer indexes processed by the forward loop of `getLoss` in a training
step, starting at `i` (the loop steps over a following ACTV/SOFTMAX layer,
line 1281).  The `fuel` argument is an upper bound on the remaining loop
iterations. -/
def fwdVisitedGo (net : Net) : Nat → Nat → List Nat
  | 0, _ => []
  | fuel + 1, i =>
    if net.numLayers ≤ i then [] else i :: fwdVisitedGo net fuel (skipNext net i)

/-- The layers whose device activation the forward pass of a training step
frees through the detached free-worker: every processed layer that is marked
for offload spawns one `threadFreeLayerInputFunction` worker
(`getLoss` lines 1247-1252, worker body lines 1028-1034). -/
def fwdOffloadFreed (net : Net) (toOffload : Nat → Bool) : List Nat :=
  (fwdVisitedGo net net.numLayers 0).filter (fun i => toOffload i)

/-- The (backward iteration, prefetched layer) pairs produced by
`findPrefetchLayer` during the backward loop of `getLoss` (lines 1356-1396):
iterating from `i` down to 1, the lookup happens at non-ACTV/non-SOFTMAX
layers, and each chosen layer is allocated, copied back, and marked as
prefetched. -/
def bwdChoices (net : Net) (toOffload : Nat → Bool) :
    (i : Nat) → (prefetched : Nat → Bool) → List (Nat × Nat)
  | 0, _ => []
  | i + 1, prefetched =>
    if isActvOrSoftmax (net.layerType (i + 1)) then
      bwdChoices net toOffload i prefetched
    else
      match findPrefetchLayer net.layerType toOffload prefetched (i + 1) with
      | some j =>
        (i + 1, j) :: bwdChoices net toOffload i (Function.update prefetched j true)
      | none => bwdChoices net toOffload i prefetched

/-- The prefetch choices of one full training backward pass (started with all
`prefetched` flags reset, line 1064). -/
def getLossPrefetches (net : Net) (toOffload : Nat → Bool) : List (Nat × Nat) :=
  match net.numLayers with
  | 0 => []
  | l + 1 => bwdChoices net toOffload l (fun _ => false)

end OffloadPrefetchPairing

section Inference

/-- The scan of the `inferClass` kernel (lines 31-38): walk classes `j`
upward, replacing the running maximum on a strictly larger score, so the
earliest maximal index is kept.  Scores are modelled as integers (only their
order matters). -/
def inferClassLoop (score : Nat → Int) (numClasses : Nat) :
    (fuel j : Nat) → (curMax : Int) → (curIdx : Nat) → Nat
  | 0, _, _, curIdx => curIdx
  | fuel + 1, j, curMax, curIdx =>
    if numClasses ≤ j then curIdx
    else if curMax < score j then
      inferClassLoop score numClasses fuel (j + 1) (score j) j
    else inferClassLoop score numClasses fuel (j + 1) curMax curIdx

/-- The `inferClass` kernel for one batch row (lines 25-40): start from class
0 and scan classes 1 onward (the fuel `numClasses` bounds the loop length). -/
def inferClass (O : Nat → Int) (numClasses row : Nat) : Nat :=
  inferClassLoop (fun j => O (row * numClasses + j)) numClasses numClasses 1
    (O (row * numClasses)) 0

/-- `NeuralNet::compareOutputCorrect` (lines 60-82): predicted classes are
compared with the labels and the matches are counted. -/
def compareOutputCorrect (O : Nat → Int) (y : Nat → Nat)
    (batchSize numClasses : Nat) : Nat :=
  ((List.range batchSize).filter
    (fun i => decide (inferClass O numClasses i = y i))).length

/-- Modelled from the spec: `m` is the argmax of the scores over classes
`0..numClasses`, with ties broken toward the smallest index. -/
def IsLeastArgmax (score : Nat → Int) (numClasses m : Nat) : Prop :=
  m < numClasses ∧ (∀ j, j < numClasses → score j ≤ score m) ∧
    ∀ j, j < m → score j < score m

instance (score : Nat → Int) (numClasses m : Nat) :
    Decidable (IsLeastArgmax score numClasses m) := by
  unfold IsLeastArgmax
  infer_instance

end Inference

section LossModel

variable {R : Type} [Field R]

/-- The `computeSoftmaxLoss` kernel (lines 15-23): thread `i` (for `i <
batch_size`) writes `-log(O[i * num_classes + y[i]] + eps)` into `loss[i]`.
Machine floats are modelled by a field `R` with the logarithm as an opaque
function `rlog` (the kernel is the only consumer of the logarithm). -/
def computeSoftmaxLossKernel (rlog : R → R) (O : Nat → R) (y : Nat → Nat)
    (numClasses : Nat) (eps : R) (i : Nat) : R :=
  -(rlog (O (i * numClasses + y i) + eps))

/-- `NeuralNet::computeLoss` (lines 42-58): when the last layer is SOFTMAX the
kernel fills `loss[0 .. batch_size)` (otherwise the device buffer keeps its
previous contents `lossBuf`); the host copies the buffer back, accumulates it
in order, and returns the total divided by `batch_size`. -/
def computeLossModel (rlog : R → R) (lastIsSoftmax : Bool) (O : Nat → R)
    (y : Nat → Nat) (lossBuf : Nat → R) (batchSize numClasses : Nat)
    (eps : R) : R :=
  let lossArr : Nat → R := fun i =>
    if lastIsSoftmax = true ∧ i < batchSize then
      computeSoftmaxLossKernel rlog O y numClasses eps i
    else lossBuf i
  (((List.range batchSize).map lossArr).foldl (· + ·) 0) / (batchSize : R)

end LossModel

section ClaimData

/-- Claim C7 counterexample: a two-layer CONV/SOFTMAX network on which the
analytic simulation and the allocator replay do not perform the same event
sequence — the backward pass of layer 0 allocates the workspace (7 bytes for
forward, 5 for backward) and the filter/bias derivatives (2 and 3 bytes) in
opposite orders. -/
def cexNet : Net where
  numLayers := 2
  layerType := fun k => if k = 0 then CONV else SOFTMAX
  layerInputSize := fun _ => 1
  dataTypeSize := 1
  batchSize := 1
  numClasses := 1
  fwdWorkspaceSize := fun _ => 7
  bwdFilterWorkspaceSize := fun _ => 5
  bwdDataWorkspaceSize := fun _ => 4
  fwdWorkspaceOk := fun _ => true
  bwdFilterWorkspaceOk := fun _ => true
  bwdDataWorkspaceOk := fun _ => true
  kernelSize := fun _ => 2
  cOut := fun _ => 3
  weightMatrixSize := fun _ => 1
  allocationSize := fun _ => 1
  preAllocConvDerivative := false
  preAllocFcDerivative := false
  preAllocBatchNormDerivative := true
  freeBytes := 1000

/-- The all-false offload map (no layer offloaded). -/
def cexOff : Nat → Bool := fun _ => false

/-- A small well-formed feasible demonstration network: FULLY_CONNECTED then
SOFTMAX, one-element activations, one sample, one class. -/
def demoNet : Net where
  numLayers := 2
  layerType := fun k => if k = 0 then FULLY_CONNECTED else SOFTMAX
  layerInputSize := fun _ => 1
  dataTypeSize := 1
  batchSize := 1
  numClasses := 1
  fwdWorkspaceSize := fun _ => 0
  bwdFilterWorkspaceSize := fun _ => 0
  bwdDataWorkspaceSize := fun _ => 0
  fwdWorkspaceOk := fun _ => true
  bwdFilterWorkspaceOk := fun _ => true
  bwdDataWorkspaceOk := fun _ => true
  kernelSize := fun _ => 1
  cOut := fun _ => 1
  weightMatrixSize := fun _ => 1
  allocationSize := fun _ => 1
  preAllocConvDerivative := false
  preAllocFcDerivative := false
  preAllocBatchNormDerivative := true
  freeBytes := 100

/-- Layer types of the C6 witness network: two FULLY_CONNECTED layers and a
trailing SOFTMAX. -/
def c6lt : Nat → LayerType := fun k => if k = 2 then SOFTMAX else FULLY_CONNECTED

/-- Offload map of the C8 witness: only layer 0. -/
def c8off : Nat → Bool := fun k => k == 0

/-- The C8 witness network: CONV, CONV, SOFTMAX. -/
def c8net : Net :=
  { demoNet with layerType := fun k => if k = 2 then SOFTMAX else CONV,
                 numLayers := 3 }

end ClaimData

section FindPrefetch

variable (lt : Nat → LayerType) (toOffload prefetched : Nat → Bool)

lemma findPrefetchLayer_lt {cur j : Nat}
    (h : findPrefetchLayer lt toOffload prefetched cur = some j) : j < cur := by
  induction cur with
  | zero => simp [findPrefetchLayer] at h
  | succ i ih =>
    unfold findPrefetchLayer at h
    split at h
    · simp at h; omega
    · split at h
      · simp at h
      · have := ih h; omega

lemma findPrefetchLayer_offload {cur j : Nat}
    (h : findPrefetchLayer lt toOffload prefetched cur = some j) :
    toOffload j = true ∧ prefetched j = false := by
  induction cur with
  | zero => simp [findPrefetchLayer] at h
  | succ i ih =>
    unfold findPrefetchLayer at h
    split at h
    · next hc =>
      simp at h
      subst h
      simp only [Bool.and_eq_true, Bool.not_eq_true'] at hc
      exact hc
    · split at h
      · simp at h
      · exact ih h

/-- Full characterisation of `findPrefetchLayer`: it returns `some j` exactly
when `j` is an offloaded, not-yet-prefetched layer below `cur` and every layer
strictly between `j` and `cur` is neither such a candidate nor a CONV layer. -/
lemma findPrefetchLayer_eq_some_iff (cur j : Nat) :
    findPrefetchLayer lt toOffload prefetched cur = some j ↔
      (j < cur ∧ toOffload j = true ∧ prefetched j = false ∧
        ∀ k, j < k → k < cur →
          ¬(toOffload k = true ∧ prefetched k = false) ∧ lt k ≠ CONV) := by
  induction cur with
  | zero => simp [findPrefetchLayer]
  | succ i ih =>
    unfold findPrefetchLayer
    by_cases hc : toOffload i && !prefetched i
    · simp only [hc, if_true]
      simp only [Bool.and_eq_true, Bool.not_eq_true'] at hc
      constructor
      · rintro h
        simp at h
        subst h
        exact ⟨Nat.lt_succ_self i, hc.1, hc.2, fun k h1 h2 => by omega⟩
      · rintro ⟨hj, ho, hp, hall⟩
        rcases Nat.lt_succ_iff_lt_or_eq.mp hj with h | h
        · exact absurd ⟨hc.1, hc.2⟩ (hall i h (Nat.lt_succ_self i)).1
        · simp [h]
    · rw [if_neg hc]
      by_cases hconv : (lt i == CONV) = true
      · rw [if_pos hconv]
        constructor
        · intro h; simp at h
        · rintro ⟨hj, ho, hp, hall⟩
          rcases Nat.lt_succ_iff_lt_or_eq.mp hj with h | h
          · exact absurd (by simpa using hconv) (hall i h (Nat.lt_succ_self i)).2
          · subst h
            rw [Bool.and_eq_true, Bool.not_eq_true'] at hc
            exact absurd ⟨ho, hp⟩ hc
      · rw [if_neg hconv]
        rw [ih]
        constructor
        · rintro ⟨hj, ho, hp, hall⟩
          refine ⟨by omega, ho, hp, fun k h1 h2 => ?_⟩
          rcases Nat.lt_succ_iff_lt_or_eq.mp h2 with h | h
          · exact hall k h1 h
          · subst h
            rw [Bool.and_eq_true, Bool.not_eq_true'] at hc
            exact ⟨hc, by simpa using hconv⟩
        · rintro ⟨hj, ho, hp, hall⟩
          have hji : j ≠ i := by
            rintro rfl
            rw [Bool.and_eq_true, Bool.not_eq_true'] at hc
            exact hc ⟨ho, hp⟩
          exact ⟨by omega, ho, hp, fun k h1 h2 => hall k h1 (by omega)⟩

end FindPrefetch

section SetOffload

/-- `scanLastNonAS` finds exactly the largest non-ACTV/non-SOFTMAX index below
the bound. -/
lemma scanLastNonAS_eq_some_iff (lt : List LayerType) (n j : Nat) :
    scanLastNonAS lt n = some j ↔
      (j < n ∧ isActvOrSoftmax (lt.getD j ACTV) = false ∧
        ∀ k, j < k → k < n → isActvOrSoftmax (lt.getD k ACTV) = true) := by
  induction n with
  | zero => simp [scanLastNonAS]
  | succ i ih =>
    unfold scanLastNonAS
    by_cases hc : isActvOrSoftmax (lt.getD i ACTV) = true
    · rw [if_pos hc, ih]
      constructor
      · rintro ⟨hj, hAS, hall⟩
        refine ⟨by omega, hAS, fun k h1 h2 => ?_⟩
        rcases Nat.lt_succ_iff_lt_or_eq.mp h2 with h | h
        · exact hall k h1 h
        · subst h; exact hc
      · rintro ⟨hj, hAS, hall⟩
        have hji : j ≠ i := by rintro rfl; rw [hc] at hAS; cases hAS
        exact ⟨by omega, hAS, fun k h1 h2 => hall k h1 (by omega)⟩
    · rw [if_neg hc]
      constructor
      · rintro h
        simp only [Option.some_inj] at h
        subst h
        exact ⟨Nat.lt_succ_self i, by simpa using hc, fun k h1 h2 => by omega⟩
      · rintro ⟨hj, hAS, hall⟩
        rcases Nat.lt_succ_iff_lt_or_eq.mp hj with h | h
        · exact absurd (hall i h (Nat.lt_succ_self i)) hc
        · simp [h]

lemma scanLastNonAS_ne_some (lt : List LayerType) (n i : Nat)
    (h : isActvOrSoftmax (lt.getD i ACTV) = true) :
    scanLastNonAS lt n ≠ some i := by
  intro hcon
  rw [scanLastNonAS_eq_some_iff] at hcon
  rw [h] at hcon
  exact absurd hcon.2.1 (by simp)

lemma getD_map_set (lt : List LayerType) (f : LayerType → Bool) (j i : Nat)
    (hi : i < lt.length) (hj : j < lt.length) :
    ((lt.map f).set j false).getD i false =
      if i = j then false else f (lt.getD i ACTV) := by
  by_cases h : i = j
  · subst h
    rw [if_pos rfl]
    rw [List.getD_eq_getElem?_getD, List.getElem?_set_self (by simpa using hi)]
    rfl
  · rw [if_neg h]
    rw [List.getD_eq_getElem?_getD, List.getElem?_set_ne (by omega)]
    rw [List.getElem?_map]
    rw [List.getElem?_eq_getElem (by simpa using hi)]
    simp [List.getD_eq_getElem?_getD, List.getElem?_eq_getElem hi]

lemma getD_map (lt : List LayerType) (f : LayerType → Bool) (i : Nat)
    (hi : i < lt.length) :
    (lt.map f).getD i false = f (lt.getD i ACTV) := by
  rw [List.getD_eq_getElem?_getD, List.getElem?_map,
    List.getElem?_eq_getElem hi]
  simp [List.getD_eq_getElem?_getD, List.getElem?_eq_getElem hi]

end SetOffload

section MemoryModelLemmas

lemma runPeak_append (s : Int × Int) (a b : List Event) :
    runPeak s (a ++ b) = runPeak (runPeak s a) b :=
  List.foldl_append ..

lemma PeakEquiv.append {a b c d : List Event} (h1 : PeakEquiv a b)
    (h2 : PeakEquiv c d) : PeakEquiv (a ++ c) (b ++ d) := by
  intro s
  rw [runPeak_append, runPeak_append, h1 s, h2 (runPeak s b)]

lemma PeakEquiv.refl (a : List Event) : PeakEquiv a a := fun _ => rfl

lemma PeakEquiv.trans {a b c : List Event} (h1 : PeakEquiv a b)
    (h2 : PeakEquiv b c) : PeakEquiv a c := fun s => (h1 s).trans (h2 s)

/-- Two adjacent allocations commute for the peak semantics. -/
lemma peakEquiv_alloc_swap (a b : Nat) :
    PeakEquiv [.alloc a, .alloc b] [.alloc b, .alloc a] := by
  rintro ⟨c, p⟩
  simp only [runPeak, List.foldl, stepPeak, Prod.mk.injEq]
  exact ⟨by omega, by omega⟩

/-- Three adjacent allocations may be rotated for the peak semantics. -/
lemma peakEquiv_alloc_rot (a b c : Nat) :
    PeakEquiv [.alloc a, .alloc b, .alloc c] [.alloc b, .alloc c, .alloc a] := by
  rintro ⟨x, p⟩
  simp only [runPeak, List.foldl, stepPeak, Prod.mk.injEq]
  exact ⟨by omega, by omega⟩

/-- Two adjacent releases commute for the peak semantics. -/
lemma peakEquiv_free_swap (a b : Nat) :
    PeakEquiv [.free a, .free b] [.free b, .free a] := by
  rintro ⟨c, p⟩
  simp only [runPeak, List.foldl, stepPeak, Prod.mk.injEq]
  exact ⟨by omega, trivial⟩

/-- Events other than `alloc` and `free` do not affect the peak semantics. -/
lemma runPeak_filter_mem (l : List Event) (s : Int × Int) :
    runPeak s (l.filter isMemEvent) = runPeak s l := by
  induction l generalizing s with
  | nil => rfl
  | cons e rest ih =>
    by_cases h : isMemEvent e
    · rw [List.filter_cons_of_pos h]
      show runPeak (stepPeak s e) _ = runPeak (stepPeak s e) rest
      exact ih (stepPeak s e)
    · rw [List.filter_cons_of_neg h]
      have he : stepPeak s e = s := by
        cases e <;> simp_all [isMemEvent, stepPeak]
      show runPeak s _ = runPeak (stepPeak s e) rest
      rw [he]
      exact ih s

end MemoryModelLemmas

section ScheduleEquiv

lemma isActvOrSoftmax_eq_false {t : LayerType}
    (h1 : t ≠ LayerType.ACTV) (h2 : t ≠ LayerType.SOFTMAX) :
    isActvOrSoftmax t = false := by
  simp [isActvOrSoftmax, h1, h2]

lemma peakEquiv_drop_marker {e : Event} (l : List Event)
    (h : isMemEvent e = false) : PeakEquiv (e :: l) l := by
  intro s
  show runPeak (stepPeak s e) l = runPeak s l
  have : stepPeak s e = s := by cases e <;> simp_all [isMemEvent, stepPeak]
  rw [this]

variable (net : Net) (toOffload : Nat → Bool)

lemma analyticFwdGo_nil_of_softmax {i : Nat}
    (hs : net.layerType i = LayerType.SOFTMAX) :
    ∀ fuel, analyticFwdGo net toOffload fuel i = [] := by
  intro fuel
  cases fuel with
  | zero => rfl
  | succ fuel =>
    by_cases hL : net.numLayers ≤ i
    · simp only [analyticFwdGo, if_pos hL]
    · simp only [analyticFwdGo, if_neg hL, if_pos hs]

lemma replayFwdGo_nil_of_stop {i : Nat} (hL : net.numLayers ≤ i) :
    ∀ fuel, replayFwdGo net toOffload fuel i = [] := by
  intro fuel
  cases fuel with
  | zero => rfl
  | succ fuel => simp only [replayFwdGo, if_pos hL]

/-- On well-formed networks, the forward pass of the analytic simulation and
the forward pass of the allocator replay produce identical event lists: both
process exactly the layers below the trailing SOFTMAX, with the same
per-layer pattern `fwdMemStep`. -/
lemma analyticFwd_eq_replayFwd (hwf : WellFormed net) :
    ∀ fuel i, i < net.numLayers → net.layerType i ≠ LayerType.SOFTMAX →
      analyticFwdGo net toOffload fuel i = replayFwdGo net toOffload fuel i := by
  intro fuel
  induction fuel with
  | zero => intro i hi hs; rfl
  | succ fuel ih =>
    intro i hi hs
    have hiL : i < net.numLayers - 1 := by
      rcases Nat.lt_or_ge i (net.numLayers - 1) with h | h
      · exact h
      · exfalso
        have : i = net.numLayers - 1 := by omega
        exact hs (this ▸ hwf.last_softmax)
    simp only [analyticFwdGo, replayFwdGo, if_neg (by omega : ¬net.numLayers ≤ i),
      if_neg hs]
    congr 1
    by_cases hend : i + 1 = net.numLayers - 1
    · have hAS : isActvOrSoftmax (net.layerType (i + 1)) = true := by
        rw [hend, hwf.last_softmax]; rfl
      rw [skipNext, if_pos hAS]
      rw [analyticFwdGo_nil_of_softmax net toOffload (hend ▸ hwf.last_softmax),
        replayFwdGo_nil_of_stop net toOffload (by omega)]
    · have hs1 : net.layerType (i + 1) ≠ LayerType.SOFTMAX :=
        hwf.softmax_only_last (i + 1) (by omega)
      have ha1 : net.layerType (i + 1) ≠ LayerType.ACTV :=
        hwf.no_actv (i + 1) (by omega)
      rw [skipNext, if_neg (by rw [isActvOrSoftmax_eq_false ha1 hs1]; simp)]
      exact ih (i + 1) (by omega) hs1

/-- One training-mode forward layer of `getLoss` is peak-equivalent to the
shared forward pattern of the two planning simulations: the offload marker
does not touch the pool, and for an offloaded CONV layer the two closing
releases are merely swapped. -/
lemma getLossFwdStep_peakEquiv (i : Nat) :
    PeakEquiv (getLossFwdStep net toOffload true i)
      (fwdMemStep net toOffload i) := by
  rintro ⟨c, p⟩
  by_cases hc : net.layerType i = LayerType.CONV <;>
    by_cases ho : toOffload i = true <;>
    by_cases hi : 0 < i <;>
    simp [getLossFwdStep, fwdMemStep, hc, ho, hi, runPeak, stepPeak,
      Prod.ext_iff] <;>
    omega

/-- The forward pass of `getLoss` in training mode is peak-equivalent to the
forward pass of the allocator replay. -/
lemma getLossFwd_peakEquiv_replayFwd :
    ∀ fuel i, PeakEquiv (getLossFwdGo net toOffload true fuel i)
      (replayFwdGo net toOffload fuel i) := by
  intro fuel
  induction fuel with
  | zero => intro i; exact PeakEquiv.refl []
  | succ fuel ih =>
    intro i
    by_cases hL : net.numLayers ≤ i
    · simp only [getLossFwdGo, replayFwdGo, if_pos hL]
      exact PeakEquiv.refl []
    · simp only [getLossFwdGo, replayFwdGo, if_neg hL, if_neg (by simp :
        ¬(true = false ∧ i = net.numLayers - 1))]
      exact PeakEquiv.append (getLossFwdStep_peakEquiv net toOffload i)
        (ih (skipNext net i))

lemma PeakEquiv.cons (e : Event) {l1 l2 : List Event} (h : PeakEquiv l1 l2) :
    PeakEquiv (e :: l1) (e :: l2) :=
  fun s => h (stepPeak s e)

/-- Cons form of `peakEquiv_alloc_swap`. -/
lemma peakEquiv_swap_cons (a b : Nat) (l : List Event) :
    PeakEquiv (.alloc a :: .alloc b :: l) (.alloc b :: .alloc a :: l) := by
  intro s
  show runPeak (runPeak s [Event.alloc a, Event.alloc b]) l =
    runPeak (runPeak s [Event.alloc b, Event.alloc a]) l
  rw [peakEquiv_alloc_swap a b s]

/-- Cons form of `peakEquiv_alloc_rot`. -/
lemma peakEquiv_rot_cons (a b c : Nat) (l : List Event) :
    PeakEquiv (.alloc a :: .alloc b :: .alloc c :: l)
      (.alloc b :: .alloc c :: .alloc a :: l) := by
  intro s
  show runPeak (runPeak s [Event.alloc a, Event.alloc b, Event.alloc c]) l =
    runPeak (runPeak s [Event.alloc b, Event.alloc c, Event.alloc a]) l
  rw [peakEquiv_alloc_rot a b c s]

lemma filter_replayBwdTypeEvents (i : Nat) :
    (replayBwdTypeEvents net i).filter isMemEvent = replayBwdTypeEvents net i := by
  apply List.filter_eq_self.mpr
  intro e he
  cases htype : net.layerType i <;>
    simp [replayBwdTypeEvents, htype, convDerivAllocs, convDerivFrees,
      fcDerivAllocs, fcDerivFrees, bnDerivAllocs, bnDerivFrees] at he <;>
    cases e <;> simp_all [isMemEvent]

lemma filter_bwdCommonFrees (i : Nat) :
    (bwdCommonFrees net i).filter isMemEvent = bwdCommonFrees net i := by
  apply List.filter_eq_self.mpr
  intro e he
  simp [bwdCommonFrees] at he
  rcases he with h | h
  · cases e <;> simp_all [isMemEvent]
  · cases e <;> simp_all [isMemEvent]

/-- One backward layer of `getLoss`, restricted to its pool traffic, is one
backward layer of the allocator replay, with identical effect on the
`prefetched` flags — provided the layer is not a standalone ACTV layer (for
those, `getLoss` skips the closing releases via `continue` while the replay
performs them). -/
lemma getLossBwdStep_filter (prefetched : Nat → Bool) (i : Nat)
    (hA : net.layerType i ≠ LayerType.ACTV) :
    (getLossBwdStep net toOffload prefetched i).1.filter isMemEvent =
        (replayBwdStep net toOffload prefetched i).1 ∧
      (getLossBwdStep net toOffload prefetched i).2 =
        (replayBwdStep net toOffload prefetched i).2 := by
  by_cases hs : net.layerType i = LayerType.SOFTMAX
  · simp [getLossBwdStep, replayBwdStep, hs, isMemEvent]
  · by_cases hi : 0 < i
    · rcases hfp : findPrefetchLayer net.layerType toOffload prefetched i with _ | j <;>
        simp [getLossBwdStep, replayBwdStep, hs, hA, hi, hfp,
          List.filter_append, filter_replayBwdTypeEvents,
          filter_bwdCommonFrees, isMemEvent]
    · simp [getLossBwdStep, replayBwdStep, hs, hA, hi, List.filter_append,
        filter_replayBwdTypeEvents, filter_bwdCommonFrees, isMemEvent]

/-- The type-specific backward events of the analytic simulation are
peak-equivalent to those of the replay/executor: for CONV the workspace and
derivative allocations are rotated, everything else is identical. -/
lemma bwdType_peakEquiv (i : Nat) :
    PeakEquiv (analyticBwdTypeEvents net i) (replayBwdTypeEvents net i) := by
  unfold analyticBwdTypeEvents replayBwdTypeEvents
  cases htype : net.layerType i
  case CONV =>
    unfold convDerivAllocs convDerivFrees
    by_cases hp : net.preAllocConvDerivative
    · simp only [hp, if_true]
      exact PeakEquiv.refl _
    · simp only [hp, if_false, Bool.false_eq_true]
      exact peakEquiv_rot_cons (net.bwdWs i)
        (net.kernelSize i * net.dataTypeSize) (net.cOut i * net.dataTypeSize)
        [.free (net.bwdWs i), .free (net.kernelSize i * net.dataTypeSize),
          .free (net.cOut i * net.dataTypeSize)]
  all_goals exact PeakEquiv.refl _

/-- One backward layer of the analytic simulation is peak-equivalent to one
backward layer of the replay, with identical effect on the `prefetched` flags
— provided the layer is not a standalone ACTV layer and, at index 0, not a
SOFTMAX layer. -/
lemma analyticBwdStep_peakEquiv (prefetched : Nat → Bool) (i : Nat)
    (hA : net.layerType i ≠ LayerType.ACTV)
    (h0 : i = 0 → net.layerType i ≠ LayerType.SOFTMAX) :
    PeakEquiv (analyticBwdStep net toOffload prefetched i).1
        (replayBwdStep net toOffload prefetched i).1 ∧
      (analyticBwdStep net toOffload prefetched i).2 =
        (replayBwdStep net toOffload prefetched i).2 := by
  by_cases hi : 0 < i
  · by_cases hs : net.layerType i = LayerType.SOFTMAX
    · constructor
      · simp only [analyticBwdStep, replayBwdStep, hs, hi, and_self, if_pos,
          if_true]
        exact PeakEquiv.refl []
      · simp [analyticBwdStep, replayBwdStep, hs, hi]
    · have hnot : ¬(0 < i ∧ net.layerType i = LayerType.SOFTMAX) := by
        rintro ⟨-, h⟩; exact hs h
      rcases hfp : findPrefetchLayer net.layerType toOffload prefetched i with _ | j
      · constructor
        · simp only [analyticBwdStep, replayBwdStep, if_neg hnot, if_neg hs,
            if_neg hA, if_pos hi, hfp]
          show PeakEquiv
            (.alloc (net.sz i) ::
              (analyticBwdTypeEvents net i ++ bwdCommonFrees net i))
            (.alloc (net.sz i) ::
              (replayBwdTypeEvents net i ++ bwdCommonFrees net i))
          exact PeakEquiv.cons _
            (PeakEquiv.append (bwdType_peakEquiv net i) (PeakEquiv.refl _))
        · simp [analyticBwdStep, replayBwdStep, hnot, hs, hA, hi, hfp]
      · constructor
        · simp only [analyticBwdStep, replayBwdStep, if_neg hnot, if_neg hs,
            if_neg hA, if_pos hi, hfp]
          show PeakEquiv
            (.alloc (net.sz i) :: .alloc (net.sz j) ::
              (analyticBwdTypeEvents net i ++ bwdCommonFrees net i))
            (.alloc (net.sz j) :: .alloc (net.sz i) ::
              (replayBwdTypeEvents net i ++ bwdCommonFrees net i))
          refine PeakEquiv.trans (peakEquiv_swap_cons _ _ _) ?_
          exact PeakEquiv.cons _ (PeakEquiv.cons _
            (PeakEquiv.append (bwdType_peakEquiv net i) (PeakEquiv.refl _)))
        · simp [analyticBwdStep, replayBwdStep, hnot, hs, hA, hi, hfp]
  · have hieq : i = 0 := by omega
    subst hieq
    have hs := h0 rfl
    have hnot : ¬(0 < 0 ∧ net.layerType 0 = LayerType.SOFTMAX) := by
      rintro ⟨h, -⟩; exact absurd h (lt_irrefl 0)
    constructor
    · simp only [analyticBwdStep, replayBwdStep, if_neg hnot, if_neg hs,
        if_neg hA, if_neg (lt_irrefl 0), findPrefetchLayer, List.nil_append]
      exact PeakEquiv.append (bwdType_peakEquiv net 0) (PeakEquiv.refl _)
    · simp [analyticBwdStep, replayBwdStep, hnot, hs, hA, findPrefetchLayer]

/-- The backward pass of `getLoss`, restricted to its pool traffic, is the
backward pass of the allocator replay (no standalone ACTV layers). -/
lemma getLossBwdIter_filter :
    ∀ i, (∀ k, k ≤ i → net.layerType k ≠ LayerType.ACTV) →
      ∀ prefetched, (getLossBwdIter net toOffload i prefetched).filter isMemEvent
        = replayBwdIter net toOffload i prefetched := by
  intro i
  induction i with
  | zero =>
    intro hA prefetched
    exact (getLossBwdStep_filter net toOffload prefetched 0 (hA 0 le_rfl)).1
  | succ i ih =>
    intro hA prefetched
    have hstep := getLossBwdStep_filter net toOffload prefetched (i + 1)
      (hA (i + 1) le_rfl)
    show ((getLossBwdStep net toOffload prefetched (i + 1)).1
        ++ getLossBwdIter net toOffload i
          (getLossBwdStep net toOffload prefetched (i + 1)).2).filter isMemEvent
      = (replayBwdStep net toOffload prefetched (i + 1)).1
        ++ replayBwdIter net toOffload i
          (replayBwdStep net toOffload prefetched (i + 1)).2
    rw [List.filter_append, hstep.1, hstep.2,
      ih (fun k hk => hA k (Nat.le_succ_of_le hk)) _]

/-- The backward pass of the analytic simulation is peak-equivalent to the
backward pass of the allocator replay (no standalone ACTV layers, layer 0 not
SOFTMAX). -/
lemma analyticBwdIter_peakEquiv :
    ∀ i, (∀ k, k ≤ i → net.layerType k ≠ LayerType.ACTV) →
      net.layerType 0 ≠ LayerType.SOFTMAX →
      ∀ prefetched, PeakEquiv (analyticBwdIter net toOffload i prefetched)
        (replayBwdIter net toOffload i prefetched) := by
  intro i
  induction i with
  | zero =>
    intro hA h0 prefetched
    exact (analyticBwdStep_peakEquiv net toOffload prefetched 0 (hA 0 le_rfl)
      (fun _ => h0)).1
  | succ i ih =>
    intro hA h0 prefetched
    have hstep := analyticBwdStep_peakEquiv net toOffload prefetched (i + 1)
      (hA (i + 1) le_rfl) (fun h => absurd h (Nat.succ_ne_zero i))
    show PeakEquiv ((analyticBwdStep net toOffload prefetched (i + 1)).1
        ++ analyticBwdIter net toOffload i
          (analyticBwdStep net toOffload prefetched (i + 1)).2)
      ((replayBwdStep net toOffload prefetched (i + 1)).1
        ++ replayBwdIter net toOffload i
          (replayBwdStep net toOffload prefetched (i + 1)).2)
    rw [hstep.2]
    exact PeakEquiv.append hstep.1
      (ih (fun k hk => hA k (Nat.le_succ_of_le hk)) h0 _)

variable {net : Net} {toOffload : Nat → Bool}

/-- On well-formed networks the analytic schedule is peak-equivalent to the
replay schedule: same allocations and releases with peak-preserving
transpositions. -/
lemma analytic_peakEquiv_replay (hwf : WellFormed net) :
    PeakEquiv (analyticEvents net toOffload) (replayEvents net toOffload) := by
  obtain ⟨l, hl⟩ : ∃ l, net.numLayers = l + 1 :=
    ⟨net.numLayers - 1, by have := hwf.two_le; omega⟩
  have h0S : net.layerType 0 ≠ LayerType.SOFTMAX :=
    hwf.softmax_only_last 0 (by have := hwf.two_le; omega)
  have hfwd : analyticFwdGo net toOffload net.numLayers 0 =
      replayFwdGo net toOffload net.numLayers 0 :=
    analyticFwd_eq_replayFwd net toOffload hwf net.numLayers 0
      (by have := hwf.two_le; omega) h0S
  have hsz : net.sz net.numLayers = net.gradSz := by
    show net.layerInputSize net.numLayers * net.dataTypeSize = _
    rw [Net.gradSz, hwf.grad_size]
  intro s
  unfold analyticEvents replayEvents
  rw [hfwd, hsz, hl]
  simp only [runPeak_append]
  exact analyticBwdIter_peakEquiv net toOffload l
    (fun k _ => hwf.no_actv k (by omega)) h0S (fun _ => false) _

/-- On well-formed networks the training schedule of `getLoss` is
peak-equivalent to the replay schedule. -/
lemma getLoss_peakEquiv_replay (hwf : WellFormed net) :
    PeakEquiv (getLossEvents net toOffload true) (replayEvents net toOffload) := by
  obtain ⟨l, hl⟩ : ∃ l, net.numLayers = l + 1 :=
    ⟨net.numLayers - 1, by have := hwf.two_le; omega⟩
  intro s
  unfold getLossEvents replayEvents
  rw [if_pos rfl, hl]
  simp only [runPeak_append]
  rw [getLossFwd_peakEquiv_replayFwd net toOffload (l + 1) 0
    (runPeak s [Event.alloc (net.sz 0)])]
  have hbwd := getLossBwdIter_filter net toOffload l
    (fun k _ => hwf.no_actv k (by omega)) (fun _ => false)
  rw [← hbwd, runPeak_filter_mem]

end ScheduleEquiv

section GradAliasLemmas

lemma bwdGradPtrs_untouched (lt : Nat → LayerType) :
    ∀ i next d k, i < k → bwdGradPtrs lt i next d k = d k := by
  intro i
  induction i with
  | zero => intro next d k hk; rfl
  | succ i ih =>
    intro next d k hk
    unfold bwdGradPtrs
    split
    · rw [ih next _ k (by omega), Function.update_noteq (by omega)]
    · rw [ih (next + 1) _ k (by omega), Function.update_noteq (by omega)]

lemma bwdGradPtrs_alias (lt : Nat → LayerType) {j : Nat}
    (hAS : isActvOrSoftmax (lt (j + 1)) = true) :
    ∀ i next d, j + 1 ≤ i →
      bwdGradPtrs lt i next d (j + 1) = bwdGradPtrs lt i next d (j + 2) := by
  intro i
  induction i with
  | zero => intro next d h; omega
  | succ i ih =>
    intro next d h
    rcases Nat.lt_or_ge (j + 1) (i + 1) with hlt | hge
    · unfold bwdGradPtrs
      split
      · exact ih next _ (by omega)
      · exact ih (next + 1) _ (by omega)
    · have hj : j + 1 = i + 1 := by omega
      rw [← hj]
      unfold bwdGradPtrs
      rw [if_pos hAS]
      rw [bwdGradPtrs_untouched lt j next _ (j + 1) (by omega),
        bwdGradPtrs_untouched lt j next _ (j + 2) (by omega)]
      rw [Function.update_same, Function.update_noteq (by omega)]

end GradAliasLemmas

section OffloadPrefetchLemmas

lemma fwdVisitedGo_ge (net : Net) :
    ∀ fuel i k, k ∈ fwdVisitedGo net fuel i → i ≤ k := by
  intro fuel
  induction fuel with
  | zero => intro i k hk; simp [fwdVisitedGo] at hk
  | succ fuel ih =>
    intro i k hk
    by_cases hL : net.numLayers ≤ i
    · simp only [fwdVisitedGo, if_pos hL] at hk; simp at hk
    · simp only [fwdVisitedGo, if_neg hL] at hk
      rcases List.mem_cons.mp hk with h | h
      · omega
      · have hnext : i < skipNext net i := by rw [skipNext]; split <;> omega
        have := ih (skipNext net i) k h
        omega

lemma fwdVisitedGo_count_le (net : Net) :
    ∀ fuel i j, (fwdVisitedGo net fuel i).count j ≤ 1 := by
  intro fuel
  induction fuel with
  | zero => intro i j; simp [fwdVisitedGo]
  | succ fuel ih =>
    intro i j
    by_cases hL : net.numLayers ≤ i
    · simp [fwdVisitedGo, if_pos hL]
    · rw [show fwdVisitedGo net (fuel + 1) i =
        i :: fwdVisitedGo net fuel (skipNext net i) by
          simp [fwdVisitedGo, if_neg hL]]
      have hnext : i < skipNext net i := by rw [skipNext]; split <;> omega
      by_cases hj : j = i
      · rw [hj, List.count_cons_self]
        have hzero : (fwdVisitedGo net fuel (skipNext net i)).count i = 0 := by
          rw [List.count_eq_zero]
          intro hmem
          have := fwdVisitedGo_ge net fuel (skipNext net i) i hmem
          omega
        omega
      · rw [List.count_cons_of_ne (by omega)]
        exact ih (skipNext net i) j

lemma fwdVisitedGo_mem (net : Net) :
    ∀ fuel j i, net.numLayers - i ≤ fuel → i ≤ j → j < net.numLayers →
      isActvOrSoftmax (net.layerType j) = false →
      j ∈ fwdVisitedGo net fuel i := by
  intro fuel
  induction fuel with
  | zero => intro j i hfu hij hjL hAS; omega
  | succ fuel ih =>
    intro j i hfu hij hjL hAS
    by_cases hieq : i = j
    · subst hieq
      simp only [fwdVisitedGo, if_neg (by omega : ¬net.numLayers ≤ i)]
      exact List.mem_cons_self _ _
    · simp only [fwdVisitedGo, if_neg (by omega : ¬net.numLayers ≤ i)]
      apply List.mem_cons_of_mem
      have hnext : skipNext net i ≤ j := by
        rw [skipNext]
        split
        · next hAS1 =>
          -- the skipped index i+1 is ACTV/SOFTMAX, so it is not j
          rcases Nat.lt_or_ge (i + 1) j with h | h
          · omega
          · have : i + 1 = j := by omega
            rw [this] at hAS1
            rw [hAS1] at hAS
            cases hAS
        · omega
      have hnextgt : i < skipNext net i := by rw [skipNext]; split <;> omega
      exact ih j (skipNext net i) (by omega) hnext hjL hAS

lemma isActvOrSoftmax_ne_conv {t : LayerType}
    (h : isActvOrSoftmax t = true) : t ≠ LayerType.CONV := by
  cases t <;> simp_all [isActvOrSoftmax]

lemma bwdChoices_snd_lt (net : Net) (toOffload : Nat → Bool) :
    ∀ i prefetched p, p ∈ bwdChoices net toOffload i prefetched → p.2 < p.1 := by
  intro i
  induction i with
  | zero => intro prefetched p hp; simp [bwdChoices] at hp
  | succ i ih =>
    intro prefetched p hp
    unfold bwdChoices at hp
    split at hp
    · exact ih prefetched p hp
    · split at hp
      · next j hfp =>
        rcases List.mem_cons.mp hp with h | h
        · subst h
          exact findPrefetchLayer_lt _ _ _ hfp
        · exact ih _ p h
      · exact ih prefetched p hp

lemma bwdChoices_countP_zero (net : Net) (toOffload : Nat → Bool) (j : Nat) :
    ∀ i prefetched, prefetched j = true →
      (bwdChoices net toOffload i prefetched).countP (fun p => p.2 == j) = 0 := by
  intro i
  induction i with
  | zero => intro prefetched hp; simp [bwdChoices]
  | succ i ih =>
    intro prefetched hp
    unfold bwdChoices
    split
    · exact ih prefetched hp
    · split
      · next k hfp =>
        have hk := findPrefetchLayer_offload _ _ _ hfp
        have hkj : k ≠ j := by
          rintro rfl
          rw [hp] at hk
          exact absurd hk.2 (by simp)
        rw [List.countP_cons_of_neg _ _ (by simpa using hkj)]
        exact ih _ (by rw [Function.update_noteq (Ne.symm hkj)]; exact hp)
      · exact ih prefetched hp

lemma bwdChoices_countP_le (net : Net) (toOffload : Nat → Bool) (j : Nat) :
    ∀ i prefetched,
      (bwdChoices net toOffload i prefetched).countP (fun p => p.2 == j) ≤ 1 := by
  intro i
  induction i with
  | zero => intro prefetched; simp [bwdChoices]
  | succ i ih =>
    intro prefetched
    unfold bwdChoices
    split
    · exact ih prefetched
    · split
      · next k hfp =>
        by_cases hkj : k = j
        · rw [List.countP_cons_of_pos _ _ (by simp [hkj])]
          have hz := bwdChoices_countP_zero net toOffload j i
            (Function.update prefetched k true)
            (by rw [hkj, Function.update_same])
          omega
        · rw [List.countP_cons_of_neg _ _ (by simpa using hkj)]
          exact ih _
      · exact ih prefetched

/-- With all layers strictly between `j` and `i0` being ACTV/SOFTMAX (hence
not offloaded and not CONV), the prefetch scan started at `i0` finds `j`. -/
lemma findPrefetchLayer_gap (net : Net) (toOffload prefetched : Nat → Bool)
    {j i0 : Nat} (hj : j < i0) (hoj : toOffload j = true)
    (hpj : prefetched j = false)
    (hmid : ∀ m, j < m → m < i0 → isActvOrSoftmax (net.layerType m) = true)
    (hoffAS : ∀ k, toOffload k = true → isActvOrSoftmax (net.layerType k) = false) :
    findPrefetchLayer net.layerType toOffload prefetched i0 = some j := by
  rw [findPrefetchLayer_eq_some_iff]
  refine ⟨hj, hoj, hpj, fun k h1 h2 => ?_⟩
  have hASk := hmid k h1 h2
  constructor
  · rintro ⟨hok, -⟩
    rw [hoffAS k hok] at hASk
    cases hASk
  · exact isActvOrSoftmax_ne_conv hASk

/-- Once the backward loop reaches the smallest non-ACTV/SOFTMAX layer above a
still-unprefetched offloaded layer `j`, some iteration chooses `j`. -/
lemma bwdChoices_chooses (net : Net) (toOffload : Nat → Bool) {j i0 : Nat}
    (hoj : toOffload j = true) (hji : j < i0)
    (hASi0 : isActvOrSoftmax (net.layerType i0) = false)
    (hmid : ∀ m, j < m → m < i0 → isActvOrSoftmax (net.layerType m) = true)
    (hoffAS : ∀ k, toOffload k = true → isActvOrSoftmax (net.layerType k) = false) :
    ∀ i prefetched, prefetched j = false → i0 ≤ i →
      0 < (bwdChoices net toOffload i prefetched).countP (fun p => p.2 == j) := by
  intro i
  induction i with
  | zero => intro prefetched hpj hi0; omega
  | succ i ih =>
    intro prefetched hpj hi0
    by_cases heq : i + 1 = i0
    · unfold bwdChoices
      rw [if_neg (by rw [heq, hASi0]; simp)]
      rw [heq, findPrefetchLayer_gap net toOffload prefetched hji hoj hpj hmid hoffAS]
      rw [List.countP_cons_of_pos _ _ (by simp)]
      omega
    · have hi0' : i0 ≤ i := by omega
      unfold bwdChoices
      split
      · exact ih prefetched hpj hi0'
      · rcases hfp : findPrefetchLayer net.layerType toOffload prefetched (i + 1)
          with _ | k
        · exact ih prefetched hpj hi0'
        · by_cases hkj : k = j
          · rw [List.countP_cons_of_pos _ _ (by simp [hkj])]
            omega
          · rw [List.countP_cons_of_neg _ _ (by simpa using hkj)]
            exact ih _ (by rw [Function.update_noteq (Ne.symm hkj)]; exact hpj) hi0'

end OffloadPrefetchLemmas

section InferenceLemmas

lemma inferClassLoop_isLeastArgmax (score : Nat → Int) (numClasses : Nat) :
    ∀ fuel j curMax curIdx, numClasses - j ≤ fuel → curIdx < numClasses →
      curMax = score curIdx → (∀ k, k < j → score k ≤ curMax) →
      (∀ k, k < curIdx → score k < curMax) →
      IsLeastArgmax score numClasses
        (inferClassLoop score numClasses fuel j curMax curIdx) := by
  intro fuel
  induction fuel with
  | zero =>
    intro j curMax curIdx hn hidx hmax hle hlt
    show IsLeastArgmax score numClasses curIdx
    exact ⟨hidx, fun k hk => hmax ▸ hle k (by omega), fun k hk => hmax ▸ hlt k hk⟩
  | succ fuel ih =>
    intro j curMax curIdx hn hidx hmax hle hlt
    by_cases hj : numClasses ≤ j
    · rw [show inferClassLoop score numClasses (fuel + 1) j curMax curIdx =
        curIdx by simp [inferClassLoop, if_pos hj]]
      exact ⟨hidx, fun k hk => hmax ▸ hle k (by omega),
        fun k hk => hmax ▸ hlt k hk⟩
    · simp only [inferClassLoop, if_neg hj]
      by_cases hbig : curMax < score j
      · rw [if_pos hbig]
        refine ih (j + 1) (score j) j (by omega) (by omega) rfl ?_ ?_
        · intro k hk
          rcases Nat.lt_succ_iff_lt_or_eq.mp hk with h | h
          · exact le_of_lt (lt_of_le_of_lt (hle k h) hbig)
          · subst h; exact le_rfl
        · intro k hk
          exact lt_of_le_of_lt (hle k hk) hbig
      · rw [if_neg hbig]
        refine ih (j + 1) curMax curIdx (by omega) hidx hmax ?_ hlt
        intro k hk
        rcases Nat.lt_succ_iff_lt_or_eq.mp hk with h | h
        · exact hle k h
        · subst h; omega

lemma isLeastArgmax_unique {score : Nat → Int} {numClasses a b : Nat}
    (ha : IsLeastArgmax score numClasses a)
    (hb : IsLeastArgmax score numClasses b) : a = b := by
  by_contra hne
  rcases Nat.lt_or_ge a b with h | h
  · have h1 := hb.2.2 a h
    have h2 := ha.2.1 b hb.1
    omega
  · have hlt : b < a := by omega
    have h1 := ha.2.2 b hlt
    have h2 := hb.2.1 a ha.1
    omega

lemma inferClass_isLeastArgmax (O : Nat → Int) (numClasses row : Nat)
    (hnc : 0 < numClasses) :
    IsLeastArgmax (fun j => O (row * numClasses + j)) numClasses
      (inferClass O numClasses row) := by
  apply inferClassLoop_isLeastArgmax _ _ numClasses 1 _ 0 (by omega) hnc rfl
  · intro k hk
    have : k = 0 := by omega
    subst this
    exact le_rfl
  · intro k hk
    omega

/-- Every event of an inference-mode `getLoss` forward pass is plain pool
traffic: no offload copies, no prefetches, no backward steps. -/
lemma getLossFwd_inference_memOnly (net : Net) (toOffload : Nat → Bool) :
    ∀ fuel i e, e ∈ getLossFwdGo net toOffload false fuel i →
      isMemEvent e = true := by
  intro fuel
  induction fuel with
  | zero => intro i e he; simp [getLossFwdGo] at he
  | succ fuel ih =>
    intro i e he
    by_cases hL : net.numLayers ≤ i
    · simp only [getLossFwdGo, if_pos hL] at he; simp at he
    · simp only [getLossFwdGo, if_neg hL] at he
      by_cases hbreak : i = net.numLayers - 1
      · rw [if_pos (by simp [hbreak])] at he
        simp at he
      · rw [if_neg (by simp [hbreak])] at he
        rcases List.mem_append.mp he with h | h
        · unfold getLossFwdStep at h
          rcases List.mem_append.mp h with h | h
          · rcases List.mem_append.mp h with h | h
            · rcases List.mem_append.mp h with h | h
              · rcases List.mem_append.mp h with h | h
                · rcases List.mem_append.mp h with h | h
                  · simp at h
                  · rcases List.mem_singleton.mp h with rfl; rfl
                · split at h
                  · rcases List.mem_singleton.mp h with rfl; rfl
                  · simp at h
              · simp at h
            · split at h
              · rcases List.mem_singleton.mp h with rfl; rfl
              · simp at h
          · split at h
            · rcases List.mem_singleton.mp h with rfl; rfl
            · simp at h
        · exact ih (skipNext net i) e h

end InferenceLemmas

section LossModelLemmas

variable {R : Type} [Field R]

lemma foldl_add_map_range (f : Nat → R) (n : Nat) :
    ((List.range n).map f).foldl (· + ·) 0 = ∑ i in Finset.range n, f i := by
  induction n with
  | zero => simp
  | succ n ih =>
    rw [List.range_succ, List.map_append, List.foldl_append, ih,
      Finset.sum_range_succ]
    simp

end LossModelLemmas

section ClaimSupport

lemma scanLastNonAS_eq_none_iff (lt : List LayerType) (n : Nat) :
    scanLastNonAS lt n = none ↔
      ∀ k, k < n → isActvOrSoftmax (lt.getD k LayerType.ACTV) = true := by
  induction n with
  | zero => simp [scanLastNonAS]
  | succ i ih =>
    unfold scanLastNonAS
    by_cases hc : isActvOrSoftmax (lt.getD i LayerType.ACTV) = true
    · rw [if_pos hc, ih]
      constructor
      · intro h k hk
        rcases Nat.lt_succ_iff_lt_or_eq.mp hk with h2 | h2
        · exact h k h2
        · subst h2; exact hc
      · intro h k hk
        exact h k (by omega)
    · rw [if_neg hc]
      constructor
      · intro h; cases h
      · intro h
        exact absurd (h i (Nat.lt_succ_self i)) hc

end ClaimSupport

section Claims

open LayerType CnmemStatus OffloadType AlgoPref

/-- Claim C4: `setOffload(OFFLOAD_ALL)` marks exactly the layers that are
neither ACTV nor SOFTMAX, except the last such layer;
`setOffload(OFFLOAD_CONV)` marks exactly the CONV layers with the same
last-layer exception; consequently under every policy an ACTV or SOFTMAX
layer is never marked, and the last non-ACTV/non-SOFTMAX layer is never
marked.  ("`i` is the last such layer" is expressed as: every later layer in
range is ACTV or SOFTMAX.) -/
theorem claim_C4_setOffload (lt : List LayerType) (i : Nat)
    (hi : i < lt.length) :
    ((setOffload lt .OFFLOAD_ALL).getD i false = true ↔
      (isActvOrSoftmax (lt.getD i ACTV) = false ∧
        ∃ k, i < k ∧ k < lt.length ∧ isActvOrSoftmax (lt.getD k ACTV) = false)) ∧
    ((setOffload lt .OFFLOAD_CONV).getD i false = true ↔
      (lt.getD i ACTV = CONV ∧
        ∃ k, i < k ∧ k < lt.length ∧ isActvOrSoftmax (lt.getD k ACTV) = false)) ∧
    (∀ ot, isActvOrSoftmax (lt.getD i ACTV) = true →
      (setOffload lt ot).getD i false = false) ∧
    (∀ ot, isActvOrSoftmax (lt.getD i ACTV) = false →
      (∀ k, i < k → k < lt.length → isActvOrSoftmax (lt.getD k ACTV) = true) →
      (setOffload lt ot).getD i false = false) := by
  have hNONE : (setOffload lt .OFFLOAD_NONE).getD i false = false := by
    simp only [setOffload]
    rw [getD_map lt _ i hi]
  rcases hscan : scanLastNonAS lt lt.length with _ | j
  · have hall := (scanLastNonAS_eq_none_iff lt lt.length).mp hscan
    have hASi := hall i hi
    have hALL : (setOffload lt .OFFLOAD_ALL).getD i false = false := by
      simp only [setOffload, hscan]
      rw [getD_map lt _ i hi, hASi]
      rfl
    have hCONV : (setOffload lt .OFFLOAD_CONV).getD i false = false := by
      simp only [setOffload, hscan]
      rw [getD_map lt _ i hi]
      exact beq_eq_false_iff_ne.mpr (isActvOrSoftmax_ne_conv hASi)
    refine ⟨?_, ?_, ?_, ?_⟩
    · rw [hALL, hASi]
      simp
    · rw [hCONV]
      have hnc := isActvOrSoftmax_ne_conv hASi
      constructor
      · intro h; cases h
      · rintro ⟨hc, -⟩; exact absurd hc hnc
    · intro ot h
      cases ot
      · exact hNONE
      · exact hCONV
      · exact hALL
    · intro ot h1 h2
      rw [hASi] at h1
      cases h1
  · obtain ⟨hjlen, hASj, hafter⟩ :=
      (scanLastNonAS_eq_some_iff lt lt.length j).mp hscan
    have hALL : (setOffload lt .OFFLOAD_ALL).getD i false =
        if i = j then false else !isActvOrSoftmax (lt.getD i ACTV) := by
      simp only [setOffload, hscan]
      exact getD_map_set lt _ j i hi hjlen
    have hCONV : (setOffload lt .OFFLOAD_CONV).getD i false =
        if i = j then false else (lt.getD i ACTV == CONV) := by
      simp only [setOffload, hscan]
      exact getD_map_set lt _ j i hi hjlen
    have hlt_of : isActvOrSoftmax (lt.getD i ACTV) = false → i ≠ j → i < j := by
      intro hASi hij
      rcases Nat.lt_or_ge i j with h | h
      · exact h
      · have : j < i := by omega
        rw [hafter i this hi] at hASi
        cases hASi
    refine ⟨?_, ?_, ?_, ?_⟩
    · rw [hALL]
      by_cases hij : i = j
      · rw [if_pos hij]
        constructor
        · intro h; cases h
        · rintro ⟨-, k, hk1, hk2, hk3⟩
          rw [hafter k (by omega) hk2] at hk3
          cases hk3
      · rw [if_neg hij]
        constructor
        · intro h
          have hASi : isActvOrSoftmax (lt.getD i ACTV) = false := by
            cases hval : isActvOrSoftmax (lt.getD i ACTV)
            · rfl
            · rw [hval] at h; cases h
          exact ⟨hASi, j, hlt_of hASi hij, hjlen, hASj⟩
        · rintro ⟨h1, -⟩
          rw [h1]
          rfl
    · rw [hCONV]
      by_cases hij : i = j
      · rw [if_pos hij]
        constructor
        · intro h; cases h
        · rintro ⟨-, k, hk1, hk2, hk3⟩
          rw [hafter k (by omega) hk2] at hk3
          cases hk3
      · rw [if_neg hij]
        rw [beq_iff_eq]
        constructor
        · intro h
          have hASi : isActvOrSoftmax (lt.getD i ACTV) = false := by
            rw [h]; rfl
          exact ⟨h, j, hlt_of hASi hij, hjlen, hASj⟩
        · rintro ⟨h1, -⟩
          exact h1
    · intro ot h
      cases ot
      · exact hNONE
      · rw [hCONV]
        by_cases hij : i = j
        · rw [if_pos hij]
        · rw [if_neg hij]
          exact beq_eq_false_iff_ne.mpr (isActvOrSoftmax_ne_conv h)
      · rw [hALL]
        by_cases hij : i = j
        · rw [if_pos hij]
        · rw [if_neg hij]
          rw [h]
          rfl
    · intro ot h1 h2
      have hij : i = j := by
        have : scanLastNonAS lt lt.length = some i :=
          (scanLastNonAS_eq_some_iff lt lt.length i).mpr ⟨hi, h1, h2⟩
        rw [hscan] at this
        exact (Option.some_inj.mp this).symm
      cases ot
      · exact hNONE
      · rw [hCONV, if_pos hij]
      · rw [hALL, if_pos hij]

/-- Claim C4 witness: a concrete network `[CONV, FULLY_CONNECTED, ACTV,
SOFTMAX]` at layer 0 (offloaded under both policies since layer 1 is the last
non-ACTV/SOFTMAX layer). -/
theorem claim_C4_setOffload_witness :
    (0 < ([CONV, FULLY_CONNECTED, ACTV, SOFTMAX] : List LayerType).length) ∧
    (((setOffload [CONV, FULLY_CONNECTED, ACTV, SOFTMAX] .OFFLOAD_ALL).getD 0
        false = true ↔
      (isActvOrSoftmax (([CONV, FULLY_CONNECTED, ACTV, SOFTMAX] : List LayerType).getD 0 ACTV) = false ∧
        ∃ k, 0 < k ∧ k < ([CONV, FULLY_CONNECTED, ACTV, SOFTMAX] : List LayerType).length ∧
          isActvOrSoftmax (([CONV, FULLY_CONNECTED, ACTV, SOFTMAX] : List LayerType).getD k ACTV) = false)) ∧
    ((setOffload [CONV, FULLY_CONNECTED, ACTV, SOFTMAX] .OFFLOAD_CONV).getD 0
        false = true ↔
      (([CONV, FULLY_CONNECTED, ACTV, SOFTMAX] : List LayerType).getD 0 ACTV = CONV ∧
        ∃ k, 0 < k ∧ k < ([CONV, FULLY_CONNECTED, ACTV, SOFTMAX] : List LayerType).length ∧
          isActvOrSoftmax (([CONV, FULLY_CONNECTED, ACTV, SOFTMAX] : List LayerType).getD k ACTV) = false)) ∧
    (∀ ot, isActvOrSoftmax (([CONV, FULLY_CONNECTED, ACTV, SOFTMAX] : List LayerType).getD 0 ACTV) = true →
      (setOffload [CONV, FULLY_CONNECTED, ACTV, SOFTMAX] ot).getD 0 false = false) ∧
    (∀ ot, isActvOrSoftmax (([CONV, FULLY_CONNECTED, ACTV, SOFTMAX] : List LayerType).getD 0 ACTV) = false →
      (∀ k, 0 < k → k < ([CONV, FULLY_CONNECTED, ACTV, SOFTMAX] : List LayerType).length →
        isActvOrSoftmax (([CONV, FULLY_CONNECTED, ACTV, SOFTMAX] : List LayerType).getD k ACTV) = true) →
      (setOffload [CONV, FULLY_CONNECTED, ACTV, SOFTMAX] ot).getD 0 false = false)) :=
  ⟨by decide, claim_C4_setOffload [CONV, FULLY_CONNECTED, ACTV, SOFTMAX] 0 (by decide)⟩

/-- Claim C5: `findPrefetchLayer(cur)` returns exactly the largest layer
`j < cur` that is marked for offload and not yet prefetched such that no
scanned layer strictly between `j` and `cur` is itself such a candidate or a
CONV layer; it returns none exactly when every candidate below `cur` is
screened off by a closer candidate or a CONV layer (in particular when no
candidate exists). -/
theorem claim_C5_findPrefetchLayer (lt : Nat → LayerType)
    (toOffload prefetched : Nat → Bool) (cur j : Nat) :
    (findPrefetchLayer lt toOffload prefetched cur = some j ↔
      (j < cur ∧ toOffload j = true ∧ prefetched j = false ∧
        ∀ k, j < k → k < cur →
          ¬(toOffload k = true ∧ prefetched k = false) ∧ lt k ≠ CONV)) ∧
    (findPrefetchLayer lt toOffload prefetched cur = none ↔
      ∀ m, m < cur → toOffload m = true → prefetched m = false →
        ∃ k, m < k ∧ k < cur ∧
          ((toOffload k = true ∧ prefetched k = false) ∨ lt k = CONV)) := by
  constructor
  · exact findPrefetchLayer_eq_some_iff lt toOffload prefetched cur j
  · rw [Option.eq_none_iff_forall_not_mem]
    constructor
    · intro h m hm ho hp
      have h2 := h m
      rw [Option.mem_def, findPrefetchLayer_eq_some_iff] at h2
      by_contra hnone
      push_neg at hnone
      apply h2
      refine ⟨hm, ho, hp, fun k hk1 hk2 => ?_⟩
      have h3 := hnone k hk1 hk2
      exact ⟨fun hc => h3.1 hc.1 hc.2, h3.2⟩
    · intro h m
      rw [Option.mem_def, findPrefetchLayer_eq_some_iff]
      rintro ⟨hm, ho, hp, hall⟩
      rcases h m hm ho hp with ⟨k, hk1, hk2, hk3⟩
      rcases hk3 with h3 | h3
      · exact (hall k hk1 hk2).1 h3
      · exact (hall k hk1 hk2).2 h3

/-- Claim C2 counterexample: on a pool status other than success and
out-of-memory (here INVALID_ARGUMENT), `lockedcnmemMalloc` does not fail with
a Fatal error as the claim demands — its loop has no error branch, so it
retries immediately, and a run over that single status is still inside the
loop rather than failed. -/
theorem claim_C2_suballocator_counterexample :
    lockedcnmemMallocMove CNMEM_STATUS_INVALID_ARGUMENT = .retryNow ∧
    specAllocMove CNMEM_STATUS_INVALID_ARGUMENT = .fatalStop ∧
    LoopMove.retryNow ≠ LoopMove.fatalStop ∧
    (lockedcnmemMallocRun [CNMEM_STATUS_INVALID_ARGUMENT]).1 = .stillWaiting ∧
    (specAllocRun [CNMEM_STATUS_INVALID_ARGUMENT]).1 = .fatal ∧
    AllocOutcome.stillWaiting ≠ AllocOutcome.fatal := by
  decide

/-- Claim C2 (amended): the suballocator's allocate loop waits on the
condition variable exactly once per out-of-memory response seen before
success, retries without waiting on any other non-success response, returns
exactly when the pool reports success, and never fails; free releases the
block and broadcasts to all waiters, all under the single mutex. -/
theorem claim_C2_suballocator (statuses : List CnmemStatus) :
    (lockedcnmemMallocRun statuses).1 ≠ .fatal ∧
    ((lockedcnmemMallocRun statuses).1 = .returned ↔
      CNMEM_STATUS_SUCCESS ∈ statuses) ∧
    (lockedcnmemMallocRun statuses).2 =
      (statuses.takeWhile (fun s => s != CNMEM_STATUS_SUCCESS)).count
        CNMEM_STATUS_OUT_OF_MEMORY ∧
    lockedcnmemFreeSteps = [.lockMutex, .poolFree, .condBroadcast, .unlockMutex] := by
  refine ⟨?_, ?_, ?_, rfl⟩
  · induction statuses with
    | nil => simp [lockedcnmemMallocRun]
    | cons s rest ih =>
      cases s <;>
        simp [lockedcnmemMallocRun, lockedcnmemMallocMove] <;>
        exact ih
  · induction statuses with
    | nil => simp [lockedcnmemMallocRun]
    | cons s rest ih =>
      cases s <;>
        simp [lockedcnmemMallocRun, lockedcnmemMallocMove] <;>
        exact ih
  · induction statuses with
    | nil => simp [lockedcnmemMallocRun]
    | cons s rest ih =>
      cases s <;>
        simp [lockedcnmemMallocRun, lockedcnmemMallocMove,
          List.takeWhile_cons, List.count_cons, bne_iff_ne] <;>
        omega

/-- Claim C3: under the dynamic planning policy (`vDNN_DYN`), the planner
performs the trainability check (all-offload, memory-optimal, hard) and fails
with OutOfMemory when it does not confirm; otherwise it returns the first
feasible candidate in the fixed order (none, perf, hard), (conv, perf, hard),
(all, perf, hard), (conv, perf, soft), (all, perf, soft), (conv, mem, hard),
(all, mem, hard); and if no candidate confirms it fails with OutOfMemory. -/
theorem claim_C3_vdnnOptimizeDyn (f : OffloadType → AlgoPref → Bool → Bool) :
    vdnnOptimizeDyn f = specChoosePlan f ∧
    ((∀ c, c ∈ specPlanTable → f c.offload c.pref c.hard = false) →
      vdnnOptimizeDyn f = .outOfMemory) := by
  constructor
  · cases h1 : f OFFLOAD_ALL PREFER_MEMORY_OPTIMAL true <;>
      cases h2 : f OFFLOAD_NONE PREFER_PERFORMANCE_OPTIMAL true <;>
      cases h3 : f OFFLOAD_CONV PREFER_PERFORMANCE_OPTIMAL true <;>
      cases h4 : f OFFLOAD_ALL PREFER_PERFORMANCE_OPTIMAL true <;>
      cases h5 : f OFFLOAD_CONV PREFER_PERFORMANCE_OPTIMAL false <;>
      cases h6 : f OFFLOAD_ALL PREFER_PERFORMANCE_OPTIMAL false <;>
      cases h7 : f OFFLOAD_CONV PREFER_MEMORY_OPTIMAL true <;>
      simp [vdnnOptimizeDyn, specChoosePlan, specPlanTable, List.find?,
        h1, h2, h3, h4, h5, h6, h7]
  · intro hall
    have h1 : f OFFLOAD_ALL PREFER_MEMORY_OPTIMAL true = false :=
      hall ⟨OFFLOAD_ALL, PREFER_MEMORY_OPTIMAL, true⟩ (by simp [specPlanTable])
    simp [vdnnOptimizeDyn, h1]

/-- Claim C1: for every well-formed network whose planning succeeds, the
running consumed-bytes counter of the training-step allocation/free schedule
of `getLoss` never exceeds the `max_consume` value returned by the planning
pipeline that sized the pool. -/
theorem claim_C1_peakBound (net : Net) (toOffload : Nat → Bool)
    (hwf : WellFormed net) (_hplan : analyticFeasible net toOffload = true) :
    peakOf (getLossEvents net toOffload true) ≤ actualMaxConsume net toOffload := by
  have h2 : peakOf (getLossEvents net toOffload true) =
      peakOf (replayEvents net toOffload) :=
    congrArg Prod.snd (getLoss_peakEquiv_replay hwf (0, 0))
  rw [h2]
  exact le_max_right _ _

/-- Claim C7 counterexample: the analytic simulation does not perform the same
sequence of allocations and releases, in the same order, as the allocator
replay and the executor schedule. -/
theorem claim_C7_counterexample :
    ¬(analyticEvents cexNet cexOff = replayEvents cexNet cexOff ∧
      (getLossEvents cexNet cexOff true).filter isMemEvent =
        replayEvents cexNet cexOff) := by
  decide

/-- Claim C7 (amended): on well-formed networks the analytic simulation, the
allocator replay, and the executor's training schedule perform the same
allocations and releases up to transpositions of adjacent allocations
(gradient vs prefetch target, workspace vs derivatives) and of adjacent
releases, which preserve the running consumed-bytes counter at every step
boundary and the running peak everywhere; consequently the analytic
`exp_max_consume` equals the replay's peak, which equals the executor
schedule's peak. -/
theorem claim_C7_amended (net : Net) (toOffload : Nat → Bool)
    (hwf : WellFormed net) :
    PeakEquiv (analyticEvents net toOffload) (replayEvents net toOffload) ∧
    PeakEquiv (getLossEvents net toOffload true) (replayEvents net toOffload) ∧
    expMaxConsume net toOffload = peakOf (replayEvents net toOffload) ∧
    peakOf (getLossEvents net toOffload true) =
      peakOf (replayEvents net toOffload) := by
  refine ⟨analytic_peakEquiv_replay hwf, getLoss_peakEquiv_replay hwf, ?_, ?_⟩
  · exact congrArg Prod.snd (analytic_peakEquiv_replay hwf (0, 0))
  · exact congrArg Prod.snd (getLoss_peakEquiv_replay hwf (0, 0))

lemma demoNet_wellFormed : WellFormed demoNet :=
  ⟨by decide, by decide, by decide, by decide, by decide⟩

/-- Claim C1 witness: the demonstration network is well-formed, its planning
succeeds, and its training schedule peak is bounded by the planned pool
size. -/
theorem claim_C1_peakBound_witness :
    WellFormed demoNet ∧ analyticFeasible demoNet cexOff = true ∧
    peakOf (getLossEvents demoNet cexOff true) ≤
      actualMaxConsume demoNet cexOff :=
  ⟨demoNet_wellFormed, by decide,
    claim_C1_peakBound demoNet cexOff demoNet_wellFormed (by decide)⟩

/-- Claim C7 witness: the amended schedule correspondence holds on the
demonstration network. -/
theorem claim_C7_amended_witness :
    WellFormed demoNet ∧
    (PeakEquiv (analyticEvents demoNet cexOff) (replayEvents demoNet cexOff) ∧
     PeakEquiv (getLossEvents demoNet cexOff true) (replayEvents demoNet cexOff) ∧
     expMaxConsume demoNet cexOff = peakOf (replayEvents demoNet cexOff) ∧
     peakOf (getLossEvents demoNet cexOff true) =
       peakOf (replayEvents demoNet cexOff)) :=
  ⟨demoNet_wellFormed, claim_C7_amended demoNet cexOff demoNet_wellFormed⟩

/-- Claim C6: during the backward pass, for a layer `i` whose successor
`i + 1` is an ACTV or SOFTMAX layer, the upstream gradient feeding layer `i`'s
backward (the spec's `grad[i]`, i.e. `dlayer_input[i + 1]`) is the very
pointer `grad[i + 1]` (`dlayer_input[i + 2]`): the ACTV/SOFTMAX iteration
aliases its slot instead of allocating, and neither slot is written again
before layer `i`'s backward runs (each slot is assigned exactly once, at its
own iteration). -/
theorem claim_C6_gradAlias (lt : Nat → LayerType) (numLayers i : Nat)
    (hi : i + 1 < numLayers) (hAS : isActvOrSoftmax (lt (i + 1)) = true) :
    gradPtrFinal lt numLayers (i + 1) = gradPtrFinal lt numLayers (i + 2) := by
  obtain ⟨l, rfl⟩ : ∃ l, numLayers = l + 1 := ⟨numLayers - 1, by omega⟩
  exact bwdGradPtrs_alias lt hAS l 1 _ (by omega)

/-- Claim C6 witness: in the three-layer network, the gradient feeding layer
1's backward aliases the loss gradient across the SOFTMAX layer 2. -/
theorem claim_C6_gradAlias_witness :
    1 + 1 < 3 ∧ isActvOrSoftmax (c6lt (1 + 1)) = true ∧
    gradPtrFinal c6lt 3 (1 + 1) = gradPtrFinal c6lt 3 (1 + 2) :=
  ⟨by decide, by decide, claim_C6_gradAlias c6lt 3 1 (by decide) (by decide)⟩

/-- Claim C8: in a training step, every layer marked for offload has its
device activation freed exactly once during the forward pass (one free-worker
spawn), is chosen as a prefetch target exactly once during the backward pass,
and that choice happens at a backward iteration strictly above the layer —
i.e. before the layer's own backward step waits on its prefetch-ready
semaphore (the backward loop iterates downward).  The hypotheses are the
shape `setOffload` guarantees: ACTV/SOFTMAX layers are never offloaded, and
the last non-ACTV/SOFTMAX layer is not offloaded. -/
theorem claim_C8_offloadPrefetchPairing (net : Net) (toOffload : Nat → Bool)
    (hoffAS : ∀ k, toOffload k = true →
      isActvOrSoftmax (net.layerType k) = false)
    (hlastoff : ∀ k, k < net.numLayers →
      isActvOrSoftmax (net.layerType k) = false →
      (∀ m, m < net.numLayers → k < m →
        isActvOrSoftmax (net.layerType m) = true) →
      toOffload k = false)
    (j : Nat) (hj : j < net.numLayers) (hoj : toOffload j = true) :
    (fwdOffloadFreed net toOffload).count j = 1 ∧
    (getLossPrefetches net toOffload).countP (fun p => p.2 == j) = 1 ∧
    (∀ p, p ∈ getLossPrefetches net toOffload → p.2 = j → j < p.1) := by
  have hASj := hoffAS j hoj
  have hmem : j ∈ fwdVisitedGo net net.numLayers 0 :=
    fwdVisitedGo_mem net net.numLayers j 0 (by omega) (Nat.zero_le j) hj hASj
  have hcount1 : (fwdOffloadFreed net toOffload).count j = 1 := by
    unfold fwdOffloadFreed
    rw [List.count_filter (by simpa using hoj)]
    have hle := fwdVisitedGo_count_le net net.numLayers 0 j
    have hpos : 0 < (fwdVisitedGo net net.numLayers 0).count j :=
      List.count_pos_iff.mpr hmem
    omega
  have hex : ∃ k, j < k ∧ k < net.numLayers ∧
      isActvOrSoftmax (net.layerType k) = false := by
    by_contra hcon
    push_neg at hcon
    have hoffj : toOffload j = false := by
      refine hlastoff j hj hASj (fun m h2 h1 => ?_)
      have := hcon m h1 h2
      cases hv : isActvOrSoftmax (net.layerType m)
      · exact absurd hv this
      · rfl
    rw [hoj] at hoffj
    cases hoffj
  have hspec := Nat.find_spec hex
  have hmin : ∀ m, j < m → m < Nat.find hex →
      isActvOrSoftmax (net.layerType m) = true := by
    intro m h1 h2
    have hnot := Nat.find_min hex h2
    cases hv : isActvOrSoftmax (net.layerType m)
    · exact absurd ⟨h1, by omega, hv⟩ hnot
    · rfl
  obtain ⟨l, hl⟩ : ∃ l, net.numLayers = l + 1 :=
    ⟨net.numLayers - 1, by omega⟩
  have hpref : getLossPrefetches net toOffload =
      bwdChoices net toOffload l (fun _ => false) := by
    unfold getLossPrefetches
    rw [hl]
  refine ⟨hcount1, ?_, ?_⟩
  · rw [hpref]
    have hge := bwdChoices_chooses net toOffload hoj hspec.1 hspec.2.2 hmin
      hoffAS l (fun _ => false) rfl (by omega)
    have hle := bwdChoices_countP_le net toOffload j l (fun _ => false)
    omega
  · intro p hp hpj
    rw [hpref] at hp
    have := bwdChoices_snd_lt net toOffload l (fun _ => false) p hp
    omega

/-- Claim C8 witness: on the three-layer network with layer 0 offloaded, the
offloaded layer is freed once in forward, prefetched once in backward, and the
prefetch happens above layer 0. -/
theorem claim_C8_offloadPrefetchPairing_witness :
    (∀ k, c8off k = true → isActvOrSoftmax (c8net.layerType k) = false) ∧
    (∀ k, k < c8net.numLayers →
      isActvOrSoftmax (c8net.layerType k) = false →
      (∀ m, m < c8net.numLayers → k < m →
        isActvOrSoftmax (c8net.layerType m) = true) →
      c8off k = false) ∧
    0 < c8net.numLayers ∧ c8off 0 = true ∧
    ((fwdOffloadFreed c8net c8off).count 0 = 1 ∧
     (getLossPrefetches c8net c8off).countP (fun p => p.2 == 0) = 1 ∧
     (∀ p, p ∈ getLossPrefetches c8net c8off → p.2 = 0 → 0 < p.1)) := by
  have h1 : ∀ k, c8off k = true → isActvOrSoftmax (c8net.layerType k) = false := by
    intro k hk
    have : k = 0 := by simpa [c8off] using hk
    subst this
    decide
  have h2 : ∀ k, k < c8net.numLayers →
      isActvOrSoftmax (c8net.layerType k) = false →
      (∀ m, m < c8net.numLayers → k < m →
        isActvOrSoftmax (c8net.layerType m) = true) →
      c8off k = false := by decide
  exact ⟨h1, h2, by decide, by decide,
    claim_C8_offloadPrefetchPairing c8net c8off h1 h2 0 (by decide) (by decide)⟩

/-- Claim C9: with `train == false`, every event of the `getLoss` schedule is
plain pool traffic — no offload copies, no prefetch copies, and no backward
steps are issued — and the returned `correct_count` is the number of batch
rows whose smallest-index argmax over the `numClasses` scores of the final
output equals the label. -/
theorem claim_C9_inference (net : Net) (toOffload : Nat → Bool)
    (O : Nat → Int) (y : Nat → Nat) (batchSize numClasses : Nat)
    (hnc : 0 < numClasses) :
    (∀ e, e ∈ getLossEvents net toOffload false → isMemEvent e = true) ∧
    compareOutputCorrect O y batchSize numClasses =
      ((List.range batchSize).filter (fun i =>
        decide (IsLeastArgmax (fun c => O (i * numClasses + c)) numClasses
          (y i)))).length := by
  constructor
  · intro e he
    unfold getLossEvents at he
    rw [if_neg (by simp)] at he
    rcases List.mem_append.mp he with h | h
    · rcases List.mem_append.mp h with h2 | h2
      · rcases List.mem_singleton.mp h2 with rfl
        rfl
      · exact getLossFwd_inference_memOnly net toOffload net.numLayers 0 e h2
    · rcases List.mem_singleton.mp h with rfl
      rfl
  · unfold compareOutputCorrect
    congr 1
    apply List.filter_congr
    intro i hi
    rw [decide_eq_decide]
    constructor
    · intro h
      rw [← h]
      exact inferClass_isLeastArgmax O numClasses i hnc
    · intro h
      exact isLeastArgmax_unique (inferClass_isLeastArgmax O numClasses i hnc) h

/-- Claim C9 witness: two rows of two scores each; row 0 has its maximum at
class 1 (matching its label), row 1 ties and predicts class 0 (its label is
1), so one row is counted. -/
theorem claim_C9_inference_witness :
    0 < 2 ∧
    ((∀ e, e ∈ getLossEvents demoNet cexOff false → isMemEvent e = true) ∧
     compareOutputCorrect (fun k => if k = 1 then 5 else 1)
        (fun i => if i = 0 then 1 else 1) 2 2 =
      ((List.range 2).filter (fun i =>
        decide (IsLeastArgmax
          (fun c => (fun k => if k = 1 then (5 : Int) else 1) (i * 2 + c)) 2
          ((fun i2 => if i2 = 0 then 1 else 1) i)))).length) :=
  ⟨by decide, claim_C9_inference demoNet cexOff
    (fun k => if k = 1 then 5 else 1) (fun i => if i = 0 then 1 else 1) 2 2
    (by decide)⟩

/-- Claim C10: when the last layer is SOFTMAX, the scalar loss returned by a
training step is the arithmetic mean over the batch of
`-log(O[i * num_classes + y[i]] + eps)` — the per-sample cross-entropy with
the epsilon added inside the logarithm, divided by the batch size. -/
theorem claim_C10_softmaxLoss {R : Type} [Field R] (rlog : R → R)
    (O : Nat → R) (y : Nat → Nat) (lossBuf : Nat → R)
    (batchSize numClasses : Nat) (eps : R) :
    computeLossModel rlog true O y lossBuf batchSize numClasses eps =
      (∑ i in Finset.range batchSize,
        -(rlog (O (i * numClasses + y i) + eps))) / (batchSize : R) := by
  show (((List.range batchSize).map (fun i =>
      if true = true ∧ i < batchSize then
        computeSoftmaxLossKernel rlog O y numClasses eps i
      else lossBuf i)).foldl (· + ·) 0) / (batchSize : R) = _
  have hmap : (List.range batchSize).map (fun i =>
      if true = true ∧ i < batchSize then
        computeSoftmaxLossKernel rlog O y numClasses eps i
      else lossBuf i) =
    (List.range batchSize).map
      (fun i => computeSoftmaxLossKernel rlog O y numClasses eps i) := by
    apply List.map_congr_left
    intro i hi
    rw [if_pos ⟨rfl, List.mem_range.mp hi⟩]
  rw [hmap, foldl_add_map_range]
  rfl

end Claims

end VdnnNet
